import Mathlib

/-!
# Verification of the APGer manifest-driven build and packaging pipeline

Shallow embedding of the decision logic of the APGer engine
(`.ci/engine/json_parser.py`, `flag_translator.py`, `version_resolver.py`,
`apg_builder.py`, `build_templates.py`, `.ci/main.py`).  External effects
(filesystem reads, HTTP requests, subprocesses) are represented by explicit
oracle parameters; all data is modelled by executable Lean structures.
-/

namespace Apger

/-- JSON-like values as produced by `json.load` (also covers the scalar and
container shapes returned by `yaml.safe_load`).  Objects are association
lists in insertion order, mirroring Python's insertion-ordered `dict`. -/
inductive JVal where
  | str (s : String)
  | num (n : Int)
  | jbool (b : Bool)
  | null
  | arr (xs : List JVal)
  | obj (fields : List (String × JVal))
deriving Repr

/-- Association-list lookup with string keys, mirroring `d[k]` / `k in d`
on a Python `dict` (keys of a parsed JSON document are unique). -/
def lookupKey {α : Type} (k : String) : List (String × α) → Option α
  | [] => none
  | (k0, v) :: rest => if k0 = k then some v else lookupKey k rest

/-- Python `d[k] = v` on an insertion-ordered `dict`: an existing key keeps
its position, a new key is appended at the end. -/
def dictSet {α : Type} (fs : List (String × α)) (k : String) (v : α) :
    List (String × α) :=
  match fs with
  | [] => [(k, v)]
  | (k0, v0) :: rest =>
    if k0 = k then (k0, v) :: rest else (k0, v0) :: dictSet rest k v

/-- Field access on a JSON object; `none` on a non-object mirrors the
`TypeError` raised by indexing / membership tests on non-dict values
(caught by the validator's blanket `except` and reported as failure). -/
def jGet (k : String) : JVal → Option JVal
  | .obj fs => lookupKey k fs
  | _ => none

/-- `k in d` for a JSON object. -/
def jHas (k : String) (j : JVal) : Bool := (jGet k j).isSome

/-- `isinstance(d[k], str)` after a successful lookup. -/
def jStrField (k : String) (j : JVal) : Bool :=
  match jGet k j with
  | some (.str _) => true
  | _ => false

/-- The string payload of a JSON string value. -/
def jAsStr : JVal → Option String
  | .str s => some s
  | _ => none

/-- Update one field of a JSON object (Python in-place item assignment). -/
def jSet (j : JVal) (k : String) (v : JVal) : JVal :=
  match j with
  | .obj fs => .obj (dictSet fs k v)
  | _ => j

/-! ## Flag translator (`flag_translator.py`, `FlagTranslator`) -/

/-- `FlagTranslator.flag_mappings`: per build system, the map from abstract
capability flag to the literal argument for that build system. -/
def mesonFlagMap : List (String × String) :=
  [ ("nls", "-Dnls=enabled"),
    ("shared", "-Ddefault_library=shared"),
    ("lto", "-Db_lto=true"),
    ("debug", "-Dbuildtype=debug"),
    ("release", "-Dbuildtype=release"),
    ("optimizations", "-Db_lto=true -Db_pgo=generate") ]

def flagMappings : List (String × List (String × String)) :=
  [ ("meson", mesonFlagMap),
    ("cmake",
      [ ("nls", "-DENABLE_NLS=ON"),
        ("shared", "-DBUILD_SHARED_LIBS=ON"),
        ("lto", "-DCMAKE_INTERPROCEDURAL_OPTIMIZATION=ON"),
        ("debug", "-DCMAKE_BUILD_TYPE=Debug"),
        ("release", "-DCMAKE_BUILD_TYPE=Release"),
        ("optimizations", "-DCMAKE_INTERPROCEDURAL_OPTIMIZATION=ON") ]),
    ("autotools",
      [ ("nls", "--enable-nls"),
        ("shared", "--enable-shared --disable-static"),
        ("lto", "--enable-lto"),
        ("debug", "--enable-debug"),
        ("release", "--disable-debug"),
        ("optimizations", "--enable-lto --enable-optimizations") ]),
    ("cargo",
      [ ("nls", "--features=nls"),
        ("shared", "--features=shared"),
        ("lto", "--release"),
        ("debug", "--debug"),
        ("release", "--release"),
        ("optimizations", "--release") ]),
    ("python-pep517",
      [ ("nls", "--config-settings=\"--build-option=--with-nls\""),
        ("shared", "--config-settings=\"--build-option=--enable-shared\""),
        ("lto", "--config-settings=\"--global-option=--enable-lto\""),
        ("debug", "--config-settings=\"--build-option=--debug\""),
        ("release", "--config-settings=\"--build-option=--release\""),
        ("optimizations",
          "--config-settings=\"--global-option=--enable-optimizations\"") ]) ]

/-- `FlagTranslator.translate_flags`: an unknown build system yields `[]`
(warning only); for a known system each flag found in the map contributes
its argument in input order, unknown flags are skipped with a warning. -/
def translateFlags (buildSystem : String) (useFlags : List String) :
    List String :=
  match lookupKey buildSystem flagMappings with
  | some flagMap => useFlags.filterMap fun f => lookupKey f flagMap
  | none => []

/-! ## Manifest validation (`json_parser.py`, `_validate_json_structure`)

A manifest file is modelled as `Option JVal`: `none` stands for a file whose
`json.load` raises (syntax error), which the validator's `except` arms turn
into `False`.  Non-object values at positions the code indexes raise
`TypeError`, also caught and turned into `False`; the model returns `false`
directly in those branches. -/

def validateStructure : Option JVal → Bool
  | none => false
  | some (.obj fs) =>
    match lookupKey "package" fs with
    | none => false
    | some packageInfo =>
      if !(jHas "name" packageInfo) then false
      else if !(jHas "version" packageInfo) then false
      else if !(jHas "architecture" packageInfo) then false
      else if !(jHas "source" packageInfo) then false
      else if !(jStrField "name" packageInfo) then false
      else if !(jStrField "version" packageInfo) then false
      else if !(jStrField "architecture" packageInfo) then false
      else if !(jStrField "source" packageInfo) then false
      else
        match lookupKey "build" fs with
        | none => false
        | some buildInfo =>
          if !(jHas "template" buildInfo) then false
          else if !(jStrField "template" buildInfo) then false
          else
            match jGet "dependencies" buildInfo with
            | none => true
            | some (.arr deps) =>
              deps.all fun d => match d with | .str _ => true | _ => false
            | some _ => false
  | some _ => false

/-! ## Manifest parsing (`json_parser.py`, `parse_package`) -/

/-- Python iteration over the value of `build.use` as fed to
`translate_flags`: a list yields its elements (non-string members are never
found in a flag map, hence contribute nothing and are dropped here); a
string iterates characterwise; other values are not iterable and raise. -/
def jUseFlags : JVal → Option (List String)
  | .arr xs => some (xs.filterMap jAsStr)
  | .str s => some (s.toList.map fun c => String.mk [c])
  | _ => none

/-- `JSONParser.parse_package`, parameterised by the injected version
resolver (`VersionResolver.resolve_latest_version`).  `Except.error` models
an uncaught Python exception propagating out of `parse_package`. -/
def parsePackage (resolve : String → String) (j : JVal) :
    Except String JVal :=
  match j with
  | .obj fs =>
    match lookupKey "package" fs with
    | none => .error "missing section package"
    | some packageInfo =>
      if !(jHas "name" packageInfo) then .error "missing field name"
      else if !(jHas "version" packageInfo) then .error "missing field version"
      else if !(jHas "architecture" packageInfo) then
        .error "missing field architecture"
      else if !(jHas "source" packageInfo) then .error "missing field source"
      else
        let versioned : Except String JVal :=
          match jGet "version" packageInfo with
          | some (.str "latest") =>
            match jGet "source" packageInfo with
            | some (.str src) =>
              .ok (jSet packageInfo "version" (.str (resolve src)))
            | _ => .error "source is not a string"
          | _ => .ok packageInfo
        match versioned with
        | .error e => .error e
        | .ok packageInfo2 =>
          let buildInfo := (lookupKey "build" fs).getD (.obj [])
          match jGet "use" buildInfo, jGet "template" buildInfo with
          | some useVal, some templateVal =>
            match jUseFlags useVal with
            | none => .error "use is not iterable"
            | some useFlags =>
              let templateName := (jAsStr templateVal).getD ""
              let translated := translateFlags templateName useFlags
              let buildInfo2 :=
                jSet buildInfo "translated_flags" (.arr (translated.map .str))
              .ok (.obj [("package", packageInfo2), ("build", buildInfo2)])
          | _, _ => .ok (.obj [("package", packageInfo2), ("build", buildInfo)])
  | _ => .error "manifest is not an object"

/-! ## Batch parsing (`json_parser.py`, `parse_all_packages`)

The manifest directory is `Option (List (String × Option JVal))`: `none` is a
missing directory, otherwise the `*.json` files in glob order, each file name
paired with its parsed content.  `Except.error` models the `ValueError` (or
re-raised exception) that aborts the batch. -/

def parseFiles (resolve : String → String) :
    List (String × Option JVal) → Except String (List JVal)
  | [] => .ok []
  | (fname, content) :: rest =>
    if validateStructure content then
      match content with
      | some j =>
        match parsePackage resolve j with
        | .ok p => (parseFiles resolve rest).map (p :: ·)
        | .error e => .error e
      | none => .error fname
    else .error (fname ++ " does not match the required structure")

/-- `JSONParser.parse_all_packages`: a missing directory and an empty
directory are both hard errors; otherwise every file is validated and
parsed in discovery order, any failure aborting the whole batch. -/
def parseAllPackages (resolve : String → String)
    (repodata : Option (List (String × Option JVal))) :
    Except String (List JVal) :=
  match repodata with
  | none => .error "repodata directory not found"
  | some [] => .error "no JSON files to process"
  | some files => parseFiles resolve files

/-! ## Metadata merge (`apg_builder.py`, `_combine_metadata`) -/

/-- A JSON value Python's `set()` accepts (hashable): scalars only.
`list(set(xs))` raises `TypeError` when `xs` contains a list or dict, so
container elements never reach a deduplicated result in the source. -/
def isScalar : JVal → Bool
  | .str _ => true
  | .num _ => true
  | .jbool _ => true
  | .null => true
  | _ => false

/-- Equality as used by Python's `set` on hashable JSON scalars.  On
container values (unreachable: `set()` would have raised) it returns
`false`, an arbitrary total extension. -/
def jScalarEq : JVal → JVal → Bool
  | .str a, .str b => a == b
  | .num a, .num b => a == b
  | .jbool a, .jbool b => a == b
  | .null, .null => true
  | _, _ => false

/-- Helper for `pySetList`: drop elements already seen. -/
def pySetGo (seen : List JVal) : List JVal → List JVal
  | [] => []
  | x :: rest =>
    if seen.any (fun y => jScalarEq y x) then pySetGo seen rest
    else x :: pySetGo (x :: seen) rest

/-- `list(set(xs))`: deduplicate.  Python's set iteration order is
unspecified; the model keeps first occurrences. -/
def pySetList (xs : List JVal) : List JVal := pySetGo [] xs

/-- One iteration of `_combine_metadata`'s loop over the overlay's
`package` items, acting on the current `combined['package']` fields:
both values lists → deduplicated union; key present otherwise → the
JSON (manifest) value is kept; key absent → the overlay value is added. -/
def mergePkgKey (acc : List (String × JVal)) (kv : String × JVal) :
    List (String × JVal) :=
  match lookupKey kv.1 acc with
  | some (.arr xs) =>
    match kv.2 with
    | .arr ys => dictSet acc kv.1 (.arr (pySetList (xs ++ ys)))
    | _ => acc
  | some _ => acc
  | none => dictSet acc kv.1 kv.2

/-- `APGPackageBuilder._combine_metadata`.  `none` models an uncaught
exception: the loop body indexes `combined['package']`, which raises when
the JSON metadata lacks a `package` key or holds a non-dict there (and
`.items()` raises on a non-dict overlay `package`).  With an empty overlay
`package` section the loop body never runs, so no exception occurs. -/
def combineMetadata (jsonMetadata yamlMetadata : List (String × JVal)) :
    Option (List (String × JVal)) :=
  match lookupKey "package" yamlMetadata with
  | none => some jsonMetadata
  | some (.obj []) => some jsonMetadata
  | some (.obj ypairs) =>
    match lookupKey "package" jsonMetadata with
    | some (.obj jpairs) =>
      some (dictSet jsonMetadata "package"
        (.obj (ypairs.foldl mergePkgKey jpairs)))
    | some _ => none
    | none => none
  | some _ => none

/-! ## URL parsing helpers (`urllib.parse.urlparse`, restricted to the
fields the resolver reads: scheme, netloc, path) -/

/-- Split a character list at the first occurrence of `://`. -/
def splitSchemeMarker : List Char → Option (List Char × List Char)
  | ':' :: '/' :: '/' :: tail => some ([], tail)
  | c :: rest => (splitSchemeMarker rest).map (fun p => (c :: p.1, p.2))
  | [] => none

structure UrlParts where
  scheme : String
  netloc : String
  path : String
deriving Repr

/-- `urlparse` for `scheme://netloc/path[?query][#fragment]` URLs; the
query and fragment are split off and discarded (the resolver never reads
them).  A URL without `://` is treated as all-path, as `urlparse` does for
scheme-less input. -/
def pyUrlparse (url : String) : UrlParts :=
  match splitSchemeMarker url.toList with
  | none =>
    ⟨"", "", String.mk (url.toList.takeWhile fun c => c ≠ '?' && c ≠ '#')⟩
  | some (scheme, rest) =>
    let netloc := rest.takeWhile fun c => c ≠ '/' && c ≠ '?' && c ≠ '#'
    let after := rest.drop netloc.length
    let path := after.takeWhile fun c => c ≠ '?' && c ≠ '#'
    ⟨String.mk scheme, String.mk netloc, String.mk path⟩

/-- Does `needle` start `hay`? -/
def leadsList : List Char → List Char → Bool
  | [], _ => true
  | _ :: _, [] => false
  | a :: as, b :: bs => a == b && leadsList as bs

/-- Contiguous substring containment (Python `needle in haystack`). -/
def containsSub (needle : List Char) : List Char → Bool
  | [] => needle.isEmpty
  | c :: rest => leadsList needle (c :: rest) || containsSub needle rest

/-- Python `needle in hay` on strings. -/
def strContains (needle hay : String) : Bool :=
  containsSub needle.toList hay.toList

/-- `s.strip('/')` on a character list. -/
def stripSlashes (s : List Char) : List Char :=
  ((s.dropWhile (· = '/')).reverse.dropWhile (· = '/')).reverse

/-- Python `s.split(sep)` for a one-character separator: `"".split(sep)`
is `[""]`, and separators at the ends produce empty pieces. -/
def splitChar (sep : Char) : List Char → List (List Char)
  | [] => [[]]
  | c :: rest =>
    if c = sep then [] :: splitChar sep rest
    else
      match splitChar sep rest with
      | h :: t => (c :: h) :: t
      | [] => [[c]]

/-- `parsed_url.path.strip('/').split('/')`, as used to pick a forge
owner and repository out of a source URL. -/
def pathParts (url : String) : List String :=
  (splitChar '/' (stripSlashes (pyUrlparse url).path.toList)).map String.mk

/-- `path.rsplit('/', 1)[0]`: drop the final path segment; a path with no
slash is returned whole. -/
def beforeLastSlash (s : List Char) : List Char :=
  if s.any (· = '/') then
    (((s.reverse.dropWhile (· ≠ '/')).drop 1)).reverse
  else s

/-! ## Generic version scan (`version_resolver.py`,
`_resolve_generic_latest`)

The regular expression used by the source is
`(?:^|[\s/_\-])(\d+\.\d+\.\d+)(?:[\s/_\-]|$)` fed to `re.findall`: a
left-to-right scan for non-overlapping matches in which each match
consumes its bounding characters. -/

/-- The characters `\s` matches in a `str` pattern: Unicode whitespace —
U+0009–U+000D, U+001C–U+0020, U+0085, U+00A0, U+1680, U+2000–U+200A,
U+2028, U+2029, U+202F, U+205F and U+3000. -/
def isPySpace (c : Char) : Bool :=
  let n := c.toNat
  decide ((9 ≤ n ∧ n ≤ 13) ∨ (28 ≤ n ∧ n ≤ 32) ∨ n = 133 ∨ n = 160 ∨
    n = 5760 ∨ (8192 ≤ n ∧ n ≤ 8202) ∨ n = 8232 ∨ n = 8233 ∨ n = 8239 ∨
    n = 8287 ∨ n = 12288)

/-- The bounding character class `[\s/_\-]`. -/
def isBoundChar (c : Char) : Bool :=
  isPySpace c || c = '/' || c = '_' || c = '-'

/-- First code points of the 66 ten-character blocks of Unicode decimal
digits (category Nd), which is what `\d` matches in a `str` pattern;
each block holds the digit values 0–9 in order. -/
def decDigitBlocks : List Nat :=
  [48, 1632, 1776, 1984, 2406, 2534, 2662, 2790, 2918, 3046, 3174, 3302,
   3430, 3558, 3664, 3792, 3872, 4160, 4240, 6112, 6160, 6470, 6608,
   6784, 6800, 6992, 7088, 7232, 7248, 42528, 43216, 43264, 43472,
   43504, 43600, 44016, 65296, 66720, 68912, 69734, 69872, 69942, 70096,
   70384, 70736, 70864, 71248, 71360, 71472, 71904, 72016, 72784, 73040,
   73120, 92768, 92864, 93008, 120782, 120792, 120802, 120812, 120822,
   123200, 123632, 125264, 130032]

/-- The decimal value of a Unicode decimal digit, `none` otherwise. -/
def decDigitVal (c : Char) : Option Nat :=
  let n := c.toNat
  (decDigitBlocks.find? fun s => decide (s ≤ n ∧ n ≤ s + 9)).map
    fun s => n - s

/-- A character `\d` matches in a `str` pattern. -/
def isDigitChar (c : Char) : Bool := (decDigitVal c).isSome

/-- Greedy `\d+\.\d+\.\d+` at the head of the input: the captured
characters and the remainder.  Greedy digit runs cannot backtrack
usefully here, so the parse is deterministic. -/
def parseTriple (s : List Char) : Option (List Char × List Char) :=
  let d1 := s.takeWhile isDigitChar
  let r1 := s.dropWhile isDigitChar
  if d1 = [] then none
  else
    match r1 with
    | '.' :: r2 =>
      let d2 := r2.takeWhile isDigitChar
      let r3 := r2.dropWhile isDigitChar
      if d2 = [] then none
      else
        match r3 with
        | '.' :: r4 =>
          let d3 := r4.takeWhile isDigitChar
          let r5 := r4.dropWhile isDigitChar
          if d3 = [] then none
          else some (d1 ++ '.' :: d2 ++ '.' :: d3, r5)
        | _ => none
    | _ => none

/-- The trailing `(?:[\s/_\-]|$)` group: consumes one bounding character,
or matches the end of the input. -/
def matchTail : List Char → Option (List Char)
  | [] => some []
  | c :: rest => if isBoundChar c then some rest else none

/-- Attempt one full-pattern match at the current position.  `atStart` is
true only at position 0, where the `^` alternative of the leading group
applies (no MULTILINE flag); otherwise a bounding character must be
consumed first.  Returns the captured version and the input remaining
after the whole match (bounds included). -/
def tryMatchAt (s : List Char) (atStart : Bool) :
    Option (List Char × List Char) :=
  let viaStart : Option (List Char × List Char) :=
    if atStart then
      match parseTriple s with
      | some (v, r) => (matchTail r).map (fun r2 => (v, r2))
      | none => none
    else none
  match viaStart with
  | some res => some res
  | none =>
    match s with
    | c :: rest =>
      if isBoundChar c then
        match parseTriple rest with
        | some (v, r) => (matchTail r).map (fun r2 => (v, r2))
        | none => none
      else none
    | [] => none

/-- Fuel-driven `re.findall` scan: try a match at each position, emit the
captured group and resume after the match, else advance one character.
Every step consumes at least one character, so `length + 1` fuel is
always enough. -/
def scanVersions : Nat → List Char → Bool → List (List Char)
  | 0, _, _ => []
  | fuel + 1, s, atStart =>
    match tryMatchAt s atStart with
    | some (v, rest) => v :: scanVersions fuel rest false
    | none =>
      match s with
      | [] => []
      | _ :: rest => scanVersions fuel rest false

/-- `re.findall(version_pattern, html_content)`. -/
def findallVersions (s : List Char) : List (List Char) :=
  scanVersions (s.length + 1) s true

/-- `int()` of a non-empty run of Unicode decimal digits. -/
def digitsToNat (ds : List Char) : Nat :=
  ds.foldl (fun a c => a * 10 + (decDigitVal c).getD 0) 0

/-- The sort key `[int(i) for i in x.split('.')]`. -/
def verKey (v : List Char) : List Nat :=
  (splitChar '.' v).map digitsToNat

/-- Python list comparison `a < b`: lexicographic, numeric per
component. -/
def lexLtNat : List Nat → List Nat → Bool
  | [], [] => false
  | [], _ :: _ => true
  | _ :: _, [] => false
  | a :: as, b :: bs =>
    if a < b then true else if b < a then false else lexLtNat as bs

/-- Python `max(x :: xs, key)`: keep the first element whose key is not
exceeded by a later one (strictly-greater keys replace the accumulator). -/
def pyMaxBy (key : List Char → List Nat) (x : List Char)
    (xs : List (List Char)) : List Char :=
  xs.foldl (fun acc y => if lexLtNat (key acc) (key y) then y else acc) x

/-! ## Version resolver (`version_resolver.py`) -/

/-- The parent-listing URL: scheme, netloc and the path with its final
segment removed (query and fragment are dropped by `urlparse`). -/
def parentDirUrl (url : String) : String :=
  let p := pyUrlparse url
  p.scheme ++ "://" ++ p.netloc ++ String.mk (beforeLastSlash p.path.toList)

/-- `_resolve_generic_latest`, with the HTTP fetch as an oracle
(`none` = `requests.RequestException`, including non-2xx responses via
`raise_for_status`). -/
def resolveGeneric (fetch : String → Option String) (url : String) :
    String :=
  match fetch (parentDirUrl url) with
  | none => "unknown"
  | some html =>
    match findallVersions html.toList with
    | [] => "unknown"
    | v :: vs => String.mk (pyMaxBy verKey v vs)

/-- External HTTP world of the resolver.  `githubApi u` is the outcome of
`GET u` on the latest-release endpoint: `Except.error` is a request
failure (network error or non-2xx), `Except.ok t` a 2xx JSON object whose
optional `tag_name` field is `t` (`release_data.get('tag_name', '')`
turns a missing field into `""`).  `gitlabApi u` likewise returns the
tag-name list of the tag-listing endpoint. -/
structure ResolverWorld where
  githubApi : String → Except Unit (Option String)
  gitlabApi : String → Except Unit (List String)
  fetch : String → Option String

/-- Strip one leading `v` (`tag_name.startswith('v')`). -/
def stripV (s : String) : String :=
  match s.toList with
  | 'v' :: rest => String.mk rest
  | _ => s

def githubApiUrl (owner repo : String) : String :=
  "https://api.github.com/repos/" ++ owner ++ "/" ++ repo ++
    "/releases/latest"

def gitlabApiUrl (group proj : String) : String :=
  "https://gitlab.com/api/v4/projects/" ++ group ++ "%2F" ++ proj ++
    "/repository/tags"

/-- `_resolve_github_latest`: with at least two path segments, query the
latest-release API; a successful response returns the `v`-stripped tag
(defaulting to `""` when the field is missing); a request failure, or a
URL with fewer than two path segments, degrades to the generic
resolver. -/
def resolveGithub (w : ResolverWorld) (url : String) : String :=
  match pathParts url with
  | owner :: repo :: _ =>
    match w.githubApi (githubApiUrl owner repo) with
    | .ok tagName => stripV (tagName.getD "")
    | .error _ => resolveGeneric w.fetch url
  | _ => resolveGeneric w.fetch url

/-- `_resolve_gitlab_latest`: first tag of the tag-listing API,
`v`-stripped; an empty tag list, a request failure, or fewer than two
path segments degrade to the generic resolver. -/
def resolveGitlab (w : ResolverWorld) (url : String) : String :=
  match pathParts url with
  | group :: proj :: _ =>
    match w.gitlabApi (gitlabApiUrl group proj) with
    | .ok (t :: _) => stripV t
    | .ok [] => resolveGeneric w.fetch url
    | .error _ => resolveGeneric w.fetch url
  | _ => resolveGeneric w.fetch url

/-- `VersionResolver.resolve_latest_version`: dispatch on the URL host.
The `kernel.org`/`gnu.org` arm and the default arm of the source both
call the generic resolver, so they collapse to one branch here. -/
def resolveLatestVersion (w : ResolverWorld) (url : String) : String :=
  let host := (pyUrlparse url).netloc
  if strContains "github.com" host then resolveGithub w url
  else if strContains "gitlab.com" host then resolveGitlab w url
  else resolveGeneric w.fetch url

/-! ## Filesystem trees and the checksum manifest (`apg_builder.py`,
`_generate_crc32_checksums`)

A packaged `data/` tree.  A `symlink` carries `some c` when its target
resolves to a regular file with byte content `c` — `Path.is_file()`
follows symbolic links — and `none` when it is dangling or resolves to a
non-file.  Symbolic links are modelled as leaves: `rglob` does not list
anything through them here.  Bytes are naturals below 256. -/

mutual
inductive FSEntry where
  | file (content : List Nat)
  | symlink (resolved : Option (List Nat))
  | dir (children : FSDir)
inductive FSDir where
  | nil
  | cons (name : String) (entry : FSEntry) (rest : FSDir)
end

/-- `Path.is_file()`: true for a regular file and for a symlink that
resolves to a regular file. -/
def pyIsFile : FSEntry → Bool
  | .file _ => true
  | .symlink (some _) => true
  | _ => false

/-- The bytes `open(file_path, 'rb').read()` returns for an entry
`pyIsFile` accepts (reading through a symlink reads its target). -/
def fileBytes : FSEntry → List Nat
  | .file c => c
  | .symlink (some c) => c
  | _ => []

/-- The names of a directory's immediate children. -/
def dirNames : FSDir → List String
  | .nil => []
  | .cons n _ rest => n :: dirNames rest

mutual
/-- `rglob('*')` under one entry: nothing below leaves; below a directory,
its direct children first, then the subtrees in order (pathlib lists each
directory's entries before descending, pre-order over directories).
Paths are component lists relative to the traversal root. -/
def rglobEntry : FSEntry → List (List String × FSEntry)
  | .file _ => []
  | .symlink _ => []
  | .dir d => rglobDirect d ++ rglobDeep d
def rglobDirect : FSDir → List (List String × FSEntry)
  | .nil => []
  | .cons n e rest => ([n], e) :: rglobDirect rest
def rglobDeep : FSDir → List (List String × FSEntry)
  | .nil => []
  | .cons n e rest =>
    (rglobEntry e).map (fun pe => (n :: pe.1, pe.2)) ++ rglobDeep rest
end

/-- `data_dir.rglob('*')` over the `data/` root. -/
def rglobDir (d : FSDir) : List (List String × FSEntry) :=
  rglobDirect d ++ rglobDeep d

mutual
/-- Well-formedness of a tree: sibling names are distinct (as on a real
filesystem). -/
def wfEntry : FSEntry → Prop
  | .dir d => wfDir d
  | _ => True
def wfDir : FSDir → Prop
  | .nil => True
  | .cons n e rest => n ∉ dirNames rest ∧ wfEntry e ∧ wfDir rest
end

/-! ### CRC-32 (`zlib.crc32`, reflected polynomial 0xEDB88320) -/

def crc32Poly : Nat := 0xEDB88320

/-- One bit step: shift right, conditionally XOR the polynomial. -/
def crcShift (c : Nat) : Nat :=
  if c % 2 = 1 then (c / 2) ^^^ crc32Poly else c / 2

/-- Process one byte (file bytes are octets; the `% 256` makes the
modelled function total on `Nat`). -/
def crcByte (c b : Nat) : Nat := crcShift^[8] (c ^^^ (b % 256))

/-- `zlib.crc32(content) & 0xffffffff`. -/
def crc32 (bs : List Nat) : Nat :=
  (bs.foldl crcByte 0xFFFFFFFF) ^^^ 0xFFFFFFFF

def hexDigitChar (n : Nat) : Char :=
  "0123456789abcdef".toList.getD n '0'

/-- `"{:08x}".format(n)` for `n < 2^32`: exactly eight lowercase hex
digits. -/
def toHex8 (n : Nat) : String :=
  String.mk ([28, 24, 20, 16, 12, 8, 4, 0].map fun k =>
    hexDigitChar ((n >>> k) % 16))

/-- `str(file_path.relative_to(data_dir))` from path components. -/
def joinPath (p : List String) : String := String.intercalate "/" p

/-- The entries `_generate_crc32_checksums` records: every traversal
entry accepted by `Path.is_file()`. -/
def checksumEntries (d : FSDir) : List (List String × FSEntry) :=
  (rglobDir d).filter fun pe => pyIsFile pe.2

/-- One `"{:08x}  {}"` line. -/
def crcLine (p : List String) (bs : List Nat) : String :=
  toHex8 (crc32 bs) ++ "  " ++ joinPath p

/-- The full text written to `crc32sums`: newline-joined lines in
traversal order, no trailing newline. -/
def genCrc32sums (d : FSDir) : String :=
  String.intercalate "\n"
    ((checksumEntries d).map fun pe => crcLine pe.1 (fileBytes pe.2))

/-! ## Build templates and orchestration (`build_templates.py`) -/

/-- External effects of a package build: `exec cmd` is the success of
`subprocess.run(cmd, check=True)`; `gradlewExists` models
`(source_dir / 'gradlew').exists()`; `wheelFiles` models
`Path(build_dir).glob("*.whl")`. -/
structure BuildWorld where
  exec : List String → Bool
  gradlewExists : Bool
  wheelFiles : List String

/-- Outcome of one lifecycle stage: reported success and the subprocess
invocations it made, in order. -/
structure StageResult where
  ok : Bool
  ran : List (List String)

def runCmd (w : BuildWorld) (cmd : List String) : StageResult :=
  ⟨w.exec cmd, [cmd]⟩

/-- A stage that performs no subprocess call and always succeeds
(`CargoTemplate.setup`, `GradleTemplate.setup`, and the copy-only
installers, whose filesystem copying is not observable here). -/
def noCmd : StageResult := ⟨true, []⟩

def mesonSetupCmd (sd bd idir : String) (extra : List String) :
    List String :=
  ["meson", "setup", bd, sd, "--prefix=/usr", "--destdir=" ++ idir] ++ extra

def mesonCompileCmd (bd : String) : List String :=
  ["meson", "compile", "-C", bd]

def mesonInstallCmd (bd : String) : List String :=
  ["meson", "install", "-C", bd, "--skip-subprojects"]

def cmakeSetupCmd (sd bd : String) (extra : List String) : List String :=
  ["cmake", "-S" ++ sd, "-B" ++ bd, "-DCMAKE_INSTALL_PREFIX=/usr",
    "-DCMAKE_INSTALL_LIBDIR=lib", "-DCMAKE_BUILD_TYPE=Release"] ++ extra

def cmakeCompileCmd (bd : String) : List String :=
  ["cmake", "--build", bd, "--parallel"]

def cmakeInstallCmd (bd idir : String) : List String :=
  ["cmake", "--install", bd, "--prefix=" ++ idir ++ "/usr"]

def autotoolsSetupCmd (sd : String) (extra : List String) : List String :=
  [sd ++ "/configure", "--prefix=/usr", "--libdir=/usr/lib",
    "--disable-dependency-tracking", "--disable-silent-rules"] ++ extra

def autotoolsCompileCmd : List String := ["make", "-j$(nproc)"]

def autotoolsInstallCmd (idir : String) : List String :=
  ["make", "DESTDIR=" ++ idir, "install"]

def cargoCompileCmd : List String := ["cargo", "build", "--release"]

def gradleCompileCmd (w : BuildWorld) : List String :=
  if w.gradlewExists then ["./gradlew", "build"] else ["gradle", "build"]

def pipToolingCmd : List String := ["pip", "install", "build", "wheel"]

def pepCompileCmd (bd : String) : List String :=
  ["python", "-m", "build", "--wheel", "--outdir", bd]

/-- `PythonPEP517Template.install`: fails without a built wheel,
otherwise installs the first one into the staging root. -/
def pepInstallStage (w : BuildWorld) (idir : String) : StageResult :=
  match w.wheelFiles with
  | [] => ⟨false, []⟩
  | wheel :: _ =>
    runCmd w ["pip", "install", "--root", idir, "--no-deps", wheel]

/-- `BuildManager.get_template` together with each template's three
lifecycle stages.  `extra` is the flag list the manager passes to
`setup`; `compile()` and `install()` are called without arguments.
`none` is an unsupported template name. -/
def getTemplateStages (w : BuildWorld) (t sd bd idir : String)
    (extra : List String) :
    Option (StageResult × StageResult × StageResult) :=
  match t with
  | "meson" => some (runCmd w (mesonSetupCmd sd bd idir extra),
      runCmd w (mesonCompileCmd bd), runCmd w (mesonInstallCmd bd))
  | "cmake" => some (runCmd w (cmakeSetupCmd sd bd extra),
      runCmd w (cmakeCompileCmd bd), runCmd w (cmakeInstallCmd bd idir))
  | "autotools" => some (runCmd w (autotoolsSetupCmd sd extra),
      runCmd w autotoolsCompileCmd, runCmd w (autotoolsInstallCmd idir))
  | "cargo" => some (noCmd, runCmd w cargoCompileCmd, noCmd)
  | "python-pep517" => some (runCmd w pipToolingCmd,
      runCmd w (pepCompileCmd bd), pepInstallStage w idir)
  | "gradle" => some (noCmd, runCmd w (gradleCompileCmd w), noCmd)
  | _ => none

/-- `build_info.get('template', 'meson')`.  A non-string value matches no
template name in `get_template`; `""` (not a template name) stands in for
it. -/
def templateNameOf (buildInfo : JVal) : String :=
  match jGet "template" buildInfo with
  | none => "meson"
  | some (.str s) => s
  | some _ => ""

/-- `extra_flags = build_info.get('extra_flags', [])`, with the
`isinstance(str)` wrap-into-a-list.  Non-string list members would make
`subprocess.run` raise later and are dropped here. -/
def rawExtraFlags (buildInfo : JVal) : List String :=
  match jGet "extra_flags" buildInfo with
  | none => []
  | some (.str s) => [s]
  | some (.arr xs) => xs.filterMap jAsStr
  | some _ => []

/-- The `translated_flags` the parser attached (always a list of
strings when present). -/
def translatedFlagsOf (buildInfo : JVal) : List String :=
  match jGet "translated_flags" buildInfo with
  | some (.arr xs) => xs.filterMap jAsStr
  | some _ => []
  | none => []

/-- `extra_flags.extend(build_info['translated_flags'])`: the raw
manifest flags come first, the translated flags are appended after
them. -/
def combinedFlags (buildInfo : JVal) : List String :=
  rawExtraFlags buildInfo ++ translatedFlagsOf buildInfo

/-- `BuildManager.build_package`: resolve the template, combine the
flags, then run setup → compile → install, stopping at the first failing
stage.  Returns the reported success and the subprocess trace. -/
def buildPackage (w : BuildWorld) (packageInfo : JVal)
    (sd bd idir : String) : Bool × List (List String) :=
  let buildInfo := (jGet "build" packageInfo).getD (.obj [])
  match getTemplateStages w (templateNameOf buildInfo) sd bd idir
      (combinedFlags buildInfo) with
  | none => (false, [])
  | some (setupRes, compileRes, installRes) =>
    if !setupRes.ok then (false, setupRes.ran)
    else if !compileRes.ok then (false, setupRes.ran ++ compileRes.ran)
    else if !installRes.ok then
      (false, setupRes.ran ++ compileRes.ran ++ installRes.ran)
    else (true, setupRes.ran ++ compileRes.ran ++ installRes.ran)

/-! ## Pipeline orchestration (`.ci/main.py`, `main`) -/

/-- Observable pipeline events, in order of occurrence. -/
inductive Event where
  | downloadFailed (name : String)
  | downloaded (name : String)
  | ran (cmd : List String)
  | buildFailed (name : String)
  | packaged (name : String)
  | signFailed (path : String)
  | signed (path : String)
deriving Repr, DecidableEq

/-- External effects of the whole run: the build world, the source
downloader, the presence of the `zstd` binary (its absence raises a
`RuntimeError` that aborts the run), and the signer. -/
structure MainWorld where
  build : BuildWorld
  download : String → Bool
  zstdOk : Bool
  sign : String → Bool

/-- A string field of the `package` section of a parsed manifest
(always present and a string for records the validator admitted). -/
def pkgField (p : JVal) (k : String) : String :=
  (((jGet "package" p).bind (jGet k)).bind jAsStr).getD ""

/-- `"{}-{}-{}.apg"` under `dist/output`. -/
def apgPath (p : JVal) : String :=
  "dist/output/" ++ pkgField p "name" ++ "-" ++ pkgField p "version" ++
    "-" ++ pkgField p "architecture" ++ ".apg"

/-- Per-package temporary directories (`tempfile.TemporaryDirectory`
contents; the changing temp name is abstracted to a fixed one). -/
def tmpSourceDir : String := "tmp/source"
def tmpBuildDir : String := "tmp/build"
def tmpInstallDir : String := "tmp/install"

/-- One iteration of `main`'s package loop: download, build, package,
sign, each failure `continue`-ing to the next package — except a missing
`zstd`, whose `RuntimeError` escapes to `main`'s blanket handler and
aborts the run (second component `true`). -/
def processPackage (w : MainWorld) (p : JVal) : List Event × Bool :=
  let name := pkgField p "name"
  if !(w.download (pkgField p "source")) then ([.downloadFailed name], false)
  else
    let br := buildPackage w.build p tmpSourceDir tmpBuildDir tmpInstallDir
    let evs := Event.downloaded name :: br.2.map .ran
    if !br.1 then (evs ++ [.buildFailed name], false)
    else if !w.zstdOk then (evs, true)
    else
      let path := apgPath p
      if w.sign path then (evs ++ [.packaged name, .signed path], false)
      else (evs ++ [.packaged name, .signFailed path], false)

/-- `main`'s loop over the parsed packages, stopping early only when an
iteration aborts the run. -/
def processAll (w : MainWorld) : List JVal → List Event
  | [] => []
  | p :: rest =>
    let r := processPackage w p
    if r.2 then r.1 else r.1 ++ processAll w rest

/-- `main`: parse the manifest directory, then process each package in
discovery order; a parse failure is caught and ends the run with nothing
processed. -/
def mainRun (w : MainWorld) (resolve : String → String)
    (repodata : Option (List (String × Option JVal))) : List Event :=
  match parseAllPackages resolve repodata with
  | .error _ => []
  | .ok pkgs => processAll w pkgs

/-! ## Statement-level helpers -/

/-- The value the metadata merge loop leaves under a key, as a function
of the manifest-side value (if any) and the overlay value: both lists →
deduplicated union, manifest value otherwise, overlay value when the
manifest lacks the key.  Used to state the merge characterisation. -/
def mergeVal : Option JVal → JVal → JVal
  | some (.arr xs), .arr ys => .arr (pySetList (xs ++ ys))
  | some v, _ => v
  | none, vy => vy

/-- Refinement comparison for the generic version scan, following the
spec's words: a version substring counts when a `\d+\.\d+\.\d+` shape
starts here and the following character is a bounding character or the
end of the text (no character is consumed). -/
def boundedAt (tail : List Char) : Option (List Char) :=
  match parseTriple tail with
  | some (v, r) =>
    match r with
    | [] => some v
    | c :: _ => if isBoundChar c then some v else none
  | none => none

/-- Walk every position, carrying the previous character; a position
qualifies when it is the start of the text or preceded by a bounding
character. -/
def specBVGo (prev : Option Char) : List Char → List (List Char)
  | [] => []
  | c :: rest =>
    let ok := match prev with
      | none => true
      | some q => isBoundChar q
    (if ok then
      match boundedAt (c :: rest) with
      | some v => [v]
      | none => []
    else []) ++ specBVGo (some c) rest

/-- All substrings of the text matching the version pattern bounded by
whitespace, `/`, `_`, `-` or the text ends — the collection the spec
describes, stated independently of `re.findall`'s consuming scan. -/
def specBoundedVersions (s : List Char) : List (List Char) :=
  specBVGo none s

/-! # Theorems -/

/-! ## Association-list lemmas -/

theorem lookupKey_dictSet_self {α : Type} (l : List (String × α))
    (k : String) (v : α) : lookupKey k (dictSet l k v) = some v := by
  induction l with
  | nil => simp [dictSet, lookupKey]
  | cons hd tl ih =>
    obtain ⟨k0, v0⟩ := hd
    by_cases hk : k0 = k
    · subst hk; simp [dictSet, lookupKey]
    · simp [dictSet, lookupKey, hk, ih]

theorem lookupKey_dictSet_of_ne {α : Type} (l : List (String × α))
    {k k0 : String} (v : α) (h : k ≠ k0) :
    lookupKey k (dictSet l k0 v) = lookupKey k l := by
  induction l with
  | nil => simp [dictSet, lookupKey, Ne.symm h]
  | cons hd tl ih =>
    obtain ⟨k1, v1⟩ := hd
    by_cases hk : k1 = k0
    · subst hk
      have : k1 ≠ k := fun hh => h hh.symm
      simp [dictSet, lookupKey, this]
    · simp only [dictSet, hk, if_false]
      by_cases hk1 : k1 = k
      · subst hk1; simp [lookupKey]
      · simp [lookupKey, hk1, ih]

theorem lookupKey_mem {α : Type} {l : List (String × α)} {k : String}
    {v : α} (h : lookupKey k l = some v) : (k, v) ∈ l := by
  induction l with
  | nil => simp [lookupKey] at h
  | cons hd tl ih =>
    obtain ⟨k0, v0⟩ := hd
    by_cases hk : k0 = k
    · subst hk
      simp [lookupKey] at h
      subst h
      exact List.mem_cons_self _ _
    · simp [lookupKey, hk] at h
      exact List.mem_cons_of_mem _ (ih h)

theorem lookupKey_eq_none_of_not_mem {α : Type} {l : List (String × α)}
    {k : String} (h : k ∉ l.map Prod.fst) : lookupKey k l = none := by
  induction l with
  | nil => simp [lookupKey]
  | cons hd tl ih =>
    obtain ⟨k0, v0⟩ := hd
    simp only [List.map_cons, List.mem_cons] at h
    push_neg at h
    simp [lookupKey, Ne.symm h.1, ih h.2]

/-! ## C7: flag translation -/

/-- C7: `translate(build_system, flags)` returns the empty sequence for
an unknown build system; for a known build system it is order-preserving
and per-flag: a block of flags translates to the concatenation of its
parts' translations, a flag known to the system contributes exactly its
mapped argument, and an unknown flag is skipped without affecting the
rest. -/
theorem C7_translate_flags (bs f : String) (flags1 flags2 : List String)
    (m : List (String × String)) :
    (lookupKey bs flagMappings = none → translateFlags bs flags1 = []) ∧
    (lookupKey bs flagMappings = some m →
      translateFlags bs (flags1 ++ flags2) =
        translateFlags bs flags1 ++ translateFlags bs flags2) ∧
    (lookupKey bs flagMappings = some m → ∀ a, lookupKey f m = some a →
      translateFlags bs [f] = [a]) ∧
    (lookupKey bs flagMappings = some m → lookupKey f m = none →
      translateFlags bs [f] = []) := by
  refine ⟨?_, ?_, ?_, ?_⟩
  · intro h; simp [translateFlags, h]
  · intro h; simp [translateFlags, h, List.filterMap_append]
  · intro h a ha; simp [translateFlags, h, List.filterMap, ha]
  · intro h ha; simp [translateFlags, h, List.filterMap, ha]

/-- Witness for C7 at the meson build system with the spec's example
flags `["shared", "lto"]` and an unknown build system. -/
theorem C7_translate_flags_witness :
    translateFlags "meson" (["shared"] ++ ["lto"]) =
      translateFlags "meson" ["shared"] ++ translateFlags "meson" ["lto"] ∧
    translateFlags "meson" ["shared"] = ["-Ddefault_library=shared"] ∧
    translateFlags "meson" ["zzz"] = [] ∧
    translateFlags "nope" ["shared"] = [] :=
  ⟨(C7_translate_flags "meson" "shared" ["shared"] ["lto"] mesonFlagMap).2.1
      rfl,
   (C7_translate_flags "meson" "shared" ["shared"] [] mesonFlagMap).2.2.1
      rfl "-Ddefault_library=shared" rfl,
   (C7_translate_flags "meson" "zzz" ["zzz"] [] mesonFlagMap).2.2.2 rfl rfl,
   (C7_translate_flags "nope" "shared" ["shared"] [] []).1 rfl⟩

/-! ## C10: the merge changes only the `package` sub-record -/

/-- C10: the metadata merge leaves every top-level key other than
`package` bound to its manifest-derived value, and with no `package` key
in the overlay the result is exactly the manifest-derived metadata. -/
theorem C10_merge_frame (jm ym out : List (String × JVal))
    (hc : combineMetadata jm ym = some out) :
    (∀ k, k ≠ "package" → lookupKey k out = lookupKey k jm) ∧
    (lookupKey "package" ym = none → out = jm) := by
  unfold combineMetadata at hc
  rcases hy : lookupKey "package" ym with _ | yv
  · rw [hy] at hc
    simp only [Option.some.injEq] at hc
    subst hc
    exact ⟨fun _ _ => rfl, fun _ => rfl⟩
  · rw [hy] at hc
    cases yv with
    | obj ypairs =>
      cases ypairs with
      | nil =>
        simp only [Option.some.injEq] at hc
        subst hc
        exact ⟨fun _ _ => rfl, by simp [hy]⟩
      | cons yp0 yrest =>
        rcases hj : lookupKey "package" jm with _ | jv
        · rw [hj] at hc; cases hc
        · rw [hj] at hc
          cases jv with
          | obj jpairs =>
            simp only [Option.some.injEq] at hc
            subst hc
            refine ⟨fun k hk => lookupKey_dictSet_of_ne jm _ hk, ?_⟩
            intro hnone; simp [hy] at hnone
          | str s => cases hc
          | num n => cases hc
          | jbool b => cases hc
          | null => cases hc
          | arr xs => cases hc
    | str s => cases hc
    | num n => cases hc
    | jbool b => cases hc
    | null => cases hc
    | arr xs => cases hc

/-- Witness for C10: a concrete merge where `build` keeps its manifest
value, and a merge with an overlay lacking `package` that returns the
manifest metadata unchanged. -/
theorem C10_merge_frame_witness :
    lookupKey "build"
        [("package",
           JVal.obj [("name", JVal.str "a"), ("tags",
             JVal.arr [JVal.str "x", JVal.str "y", JVal.str "z"]),
             ("license", JVal.str "MIT")]),
         ("build", JVal.obj [("template", JVal.str "meson")])] =
      lookupKey "build"
        [("package",
           JVal.obj [("name", JVal.str "a"), ("tags",
             JVal.arr [JVal.str "x", JVal.str "y"])]),
         ("build", JVal.obj [("template", JVal.str "meson")])] ∧
    combineMetadata
        [("package", JVal.obj [("name", JVal.str "a")])]
        [("other", JVal.str "ignored")] =
      some [("package", JVal.obj [("name", JVal.str "a")])] :=
  ⟨(C10_merge_frame
      [("package",
         JVal.obj [("name", JVal.str "a"), ("tags",
           JVal.arr [JVal.str "x", JVal.str "y"])]),
       ("build", JVal.obj [("template", JVal.str "meson")])]
      [("package",
         JVal.obj [("tags", JVal.arr [JVal.str "y", JVal.str "z"]),
           ("license", JVal.str "MIT"), ("name", JVal.str "b")])]
      _ rfl).1 "build" (by decide),
   by
    have h := (C10_merge_frame
      [("package", JVal.obj [("name", JVal.str "a")])]
      [("other", JVal.str "ignored")]
      [("package", JVal.obj [("name", JVal.str "a")])] rfl).2 rfl
    exact congrArg some h ▸ rfl⟩

/-! ## C9: GitHub resolution -/

/-- C9 (amended): for a source URL whose host contains `github.com`:
when the URL path has at least two segments, resolution queries the
GitHub latest-release API — a request failure (network error or non-2xx)
falls through to the generic fallback, a successful response returns the
tag with a single leading `v` stripped, and a missing tag yields the
empty string directly, with no fallthrough; when the path has fewer than
two segments, the API is never queried and the generic fallback is used
directly. -/
theorem C9_github_resolution (w : ResolverWorld) (url : String)
    (hhost : strContains "github.com" (pyUrlparse url).netloc = true) :
    (∀ owner repo restParts, pathParts url = owner :: repo :: restParts →
      (w.githubApi (githubApiUrl owner repo) = .error () →
        resolveLatestVersion w url = resolveGeneric w.fetch url) ∧
      (∀ tag, w.githubApi (githubApiUrl owner repo) = .ok (some tag) →
        resolveLatestVersion w url = stripV tag) ∧
      (w.githubApi (githubApiUrl owner repo) = .ok none →
        resolveLatestVersion w url = "")) ∧
    (∀ ps, pathParts url = ps → ps.length < 2 →
      resolveLatestVersion w url = resolveGeneric w.fetch url) ∧
    (∀ cs : List Char, stripV (String.mk ('v' :: cs)) = String.mk cs) := by
  have hres : resolveLatestVersion w url = resolveGithub w url := by
    unfold resolveLatestVersion
    simp [hhost]
  refine ⟨?_, ?_, fun cs => rfl⟩
  · intro owner repo restParts hparts
    refine ⟨?_, ?_, ?_⟩
    · intro h
      rw [hres]; unfold resolveGithub; rw [hparts]
      simp [h]
    · intro tag h
      rw [hres]; unfold resolveGithub; rw [hparts]
      simp [h, stripV]
    · intro h
      rw [hres]; unfold resolveGithub; rw [hparts]
      simp [h, stripV]
  · intro ps hps hlen
    rw [hres]; unfold resolveGithub; rw [hps]
    rcases ps with _ | ⟨a, _ | ⟨b, rest2⟩⟩
    · rfl
    · rfl
    · simp only [List.length_cons] at hlen
      omega

/-- Witness for C9: a world whose latest-release API answers with tag
`v2.3.0` resolves a two-segment GitHub source URL to `2.3.0`, while a
GitHub URL with fewer than two path segments goes straight to the
generic fallback without consulting the API. -/
theorem C9_github_resolution_witness :
    resolveLatestVersion
        ⟨fun _ => .ok (some "v2.3.0"), fun _ => .error (), fun _ => none⟩
        "https://github.com/foo/bar/archive/v1.0.0.tar.gz" =
      stripV "v2.3.0" ∧
    stripV "v2.3.0" = "2.3.0" ∧
    resolveLatestVersion
        ⟨fun _ => .ok (some "v2.3.0"), fun _ => .error (), fun _ => none⟩
        "https://github.com/" =
      resolveGeneric (fun _ => none) "https://github.com/" ∧
    resolveGeneric (fun _ => none) "https://github.com/" = "unknown" :=
  ⟨(((C9_github_resolution
      ⟨fun _ => .ok (some "v2.3.0"), fun _ => .error (), fun _ => none⟩
      "https://github.com/foo/bar/archive/v1.0.0.tar.gz" rfl).1 "foo" "bar"
      ["archive", "v1.0.0.tar.gz"] rfl).2.1) "v2.3.0" rfl,
   rfl,
   (C9_github_resolution
      ⟨fun _ => .ok (some "v2.3.0"), fun _ => .error (), fun _ => none⟩
      "https://github.com/" rfl).2.1 [""] rfl (by decide),
   rfl⟩

/-- C9 counterexample, refuting the claim on two inputs: a 2xx GitHub
API response whose JSON carries no `tag_name` does **not** fall through
to the generic strategy — the code returns the empty string while the
parent listing would have yielded `7.7.7` — and a `github.com` URL whose
path has fewer than two segments never queries the API at all: the
resolver answers from the parent listing (`7.7.7`) even though the API
would have supplied the tag `v9.9.9`. -/
theorem C9_github_claim_counterexample :
    (resolveLatestVersion
        ⟨fun _ => .ok none, fun _ => .error (), fun _ => some " 7.7.7 "⟩
        "https://github.com/foo/bar/archive/v1.0.0.tar.gz" = "" ∧
      resolveGeneric (fun _ => some " 7.7.7 ")
        "https://github.com/foo/bar/archive/v1.0.0.tar.gz" = "7.7.7" ∧
      ("" : String) ≠ "7.7.7") ∧
    (resolveLatestVersion
        ⟨fun _ => .ok (some "v9.9.9"), fun _ => .error (),
          fun _ => some " 7.7.7 "⟩
        "https://github.com/" = "7.7.7" ∧
      stripV "v9.9.9" = "9.9.9" ∧
      ("7.7.7" : String) ≠ "9.9.9") :=
  ⟨⟨rfl, rfl, by decide⟩, ⟨rfl, rfl, by decide⟩⟩

/-! ## Lexicographic comparison of numeric version keys -/

theorem lexLtNat_irrefl : ∀ a : List Nat, lexLtNat a a = false
  | [] => rfl
  | x :: xs => by simp [lexLtNat, lexLtNat_irrefl xs]

theorem lexLtNat_trans :
    ∀ a b c : List Nat, lexLtNat a b = true → lexLtNat b c = true →
      lexLtNat a c = true := by
  intro a
  induction a with
  | nil =>
    intro b c h1 h2
    cases b with
    | nil => simp [lexLtNat] at h1
    | cons y ys =>
      cases c with
      | nil => simp [lexLtNat] at h2
      | cons z zs => simp [lexLtNat]
  | cons x xs ih =>
    intro b c h1 h2
    cases b with
    | nil => simp [lexLtNat] at h1
    | cons y ys =>
      cases c with
      | nil => simp [lexLtNat] at h2
      | cons z zs =>
        simp only [lexLtNat] at h1 h2 ⊢
        split_ifs at h1 h2 ⊢ <;>
          first
            | rfl
            | omega
            | exact ih ys zs h1 h2

theorem lexLtNat_lt_of_nlt :
    ∀ a b c : List Nat, lexLtNat a b = true → lexLtNat c b = false →
      lexLtNat a c = true := by
  intro a
  induction a with
  | nil =>
    intro b c h1 h2
    cases b with
    | nil => simp [lexLtNat] at h1
    | cons y ys =>
      cases c with
      | nil => simp [lexLtNat] at h2
      | cons z zs => simp [lexLtNat]
  | cons x xs ih =>
    intro b c h1 h2
    cases b with
    | nil => simp [lexLtNat] at h1
    | cons y ys =>
      cases c with
      | nil => simp [lexLtNat] at h2
      | cons z zs =>
        simp only [lexLtNat] at h1 h2 ⊢
        split_ifs at h1 h2 ⊢ <;>
          first
            | rfl
            | omega
            | exact ih ys zs h1 h2

/-- Python `max` with a key: the result is one of the inputs and no input
has a strictly greater key. -/
theorem pyMaxBy_spec (key : List Char → List Nat) :
    ∀ (xs : List (List Char)) (x : List Char),
      pyMaxBy key x xs ∈ x :: xs ∧
      ∀ u ∈ x :: xs,
        lexLtNat (key (pyMaxBy key x xs)) (key u) = false := by
  intro xs
  induction xs with
  | nil =>
    intro x
    refine ⟨by simp [pyMaxBy], ?_⟩
    intro u hu
    simp only [pyMaxBy, List.foldl_nil]
    rcases List.mem_cons.mp hu with rfl | hu'
    · exact lexLtNat_irrefl _
    · simp at hu'
  | cons y ys ih =>
    intro x
    have hstep : pyMaxBy key x (y :: ys) =
        pyMaxBy key (if lexLtNat (key x) (key y) then y else x) ys := by
      simp [pyMaxBy]
    by_cases hxy : lexLtNat (key x) (key y) = true
    · rw [hstep, if_pos hxy]
      obtain ⟨hmem, hmax⟩ := ih y
      refine ⟨List.mem_cons_of_mem x hmem, ?_⟩
      intro u hu
      rcases List.mem_cons.mp hu with rfl | hu'
      · have hy := hmax y (List.mem_cons_self _ _)
        by_cases hc : lexLtNat (key (pyMaxBy key y ys)) (key u) = true
        · have := lexLtNat_trans _ _ _ hc hxy
          rw [this] at hy
          cases hy
        · exact Bool.eq_false_iff.mpr hc
      · exact hmax u hu'
    · rw [hstep, if_neg hxy]
      obtain ⟨hmem, hmax⟩ := ih x
      have hxy' : lexLtNat (key x) (key y) = false := Bool.eq_false_iff.mpr hxy
      constructor
      · rcases List.mem_cons.mp hmem with h | h
        · rw [h]; exact List.mem_cons_self _ _
        · exact List.mem_cons_of_mem x (List.mem_cons_of_mem y h)
      · intro u hu
        rcases List.mem_cons.mp hu with rfl | hu'
        · exact hmax u (List.mem_cons_self _ _)
        · rcases List.mem_cons.mp hu' with rfl | hu2
          · have hx := hmax x (List.mem_cons_self _ _)
            by_cases hc : lexLtNat (key (pyMaxBy key x ys)) (key u) = true
            · have := lexLtNat_lt_of_nlt _ _ _ hc hxy'
              rw [this] at hx
              cases hx
            · exact Bool.eq_false_iff.mpr hc
          · exact hmax u (List.mem_cons_of_mem x hu2)

/-! ## C8: the generic fallback -/

/-- C8 (amended): the generic fallback strips the filename from the URL
path, fetches the parent listing, and scans it with `re.findall`'s
left-to-right non-overlapping consuming scan for the bounded
`\d+\.\d+\.\d+` pattern (a candidate whose leading bound was consumed as
the previous match's trailing bound is missed); on fetch failure or no
match it returns `"unknown"`, otherwise the first scanned version whose
numeric component-wise key is maximal. -/
theorem C8_generic_fallback (fetch : String → Option String)
    (url : String) :
    (fetch (parentDirUrl url) = none →
      resolveGeneric fetch url = "unknown") ∧
    (∀ html, fetch (parentDirUrl url) = some html →
      findallVersions html.toList = [] →
      resolveGeneric fetch url = "unknown") ∧
    (∀ html v vs, fetch (parentDirUrl url) = some html →
      findallVersions html.toList = v :: vs →
      resolveGeneric fetch url = String.mk (pyMaxBy verKey v vs) ∧
      pyMaxBy verKey v vs ∈ v :: vs ∧
      ∀ u ∈ v :: vs,
        lexLtNat (verKey (pyMaxBy verKey v vs)) (verKey u) = false) := by
  refine ⟨?_, ?_, ?_⟩
  · intro h; unfold resolveGeneric; rw [h]
  · intro html h hf
    simp only [String.toList] at hf
    unfold resolveGeneric; rw [h]
    simp [hf]
  · intro html v vs h hf
    simp only [String.toList] at hf
    refine ⟨?_, (pyMaxBy_spec verKey vs v).1, (pyMaxBy_spec verKey vs v).2⟩
    unfold resolveGeneric; rw [h]
    simp [hf]

/-- Witness for C8: a listing containing `1.9.0` and `1.10.0` (with
separate bounds) resolves to `1.10.0` — numeric, not string, comparison
— and the scan also accepts Unicode whitespace bounds (U+00A0, U+0085),
as Python's `\s` does. -/
theorem C8_generic_fallback_witness :
    resolveGeneric (fun _ => some "foo 1.9.0 bar 1.10.0 baz")
        "http://example.org/files/pkg.tar.gz" = "1.10.0" ∧
    lexLtNat (verKey "1.9.0".toList) (verKey "1.10.0".toList) = true ∧
    findallVersions "\u00A07.7.7\u0085".toList =
      [['7', '.', '7', '.', '7']] ∧
    resolveGeneric (fun _ => some "\u00A01.9.0\u00A0x\u00851.10.0\u0085")
        "http://example.org/files/pkg.tar.gz" = "1.10.0" :=
  ⟨((C8_generic_fallback (fun _ => some "foo 1.9.0 bar 1.10.0 baz")
      "http://example.org/files/pkg.tar.gz").2.2
      "foo 1.9.0 bar 1.10.0 baz"
      ['1', '.', '9', '.', '0'] [['1', '.', '1', '0', '.', '0']]
      rfl rfl).1,
   by decide,
   rfl,
   ((C8_generic_fallback
      (fun _ => some "\u00A01.9.0\u00A0x\u00851.10.0\u0085")
      "http://example.org/files/pkg.tar.gz").2.2
      "\u00A01.9.0\u00A0x\u00851.10.0\u0085"
      ['1', '.', '9', '.', '0'] [['1', '.', '1', '0', '.', '0']]
      rfl rfl).1⟩

/-- C8 counterexample: the claim's "collects all bounded substrings" is
false — on a listing where the two versions share one bounding space,
`re.findall`'s consuming scan misses `1.10.0`, and the code returns
`1.9.0` instead of the bounded-substring maximum `1.10.0`. -/
theorem C8_consuming_scan_counterexample :
    resolveGeneric (fun _ => some "1.9.0 1.10.0")
        "http://example.org/files/pkg.tar.gz" = "1.9.0" ∧
    (specBoundedVersions "1.9.0 1.10.0".toList).map String.mk =
      ["1.9.0", "1.10.0"] ∧
    String.mk (pyMaxBy verKey "1.9.0".toList ["1.10.0".toList]) =
      "1.10.0" ∧
    ("1.9.0" : String) ≠ "1.10.0" :=
  ⟨rfl, rfl, rfl, by decide⟩

/-! ## C1: structural validation is all-or-nothing -/

theorem parseFiles_error_of_invalid (resolve : String → String) :
    ∀ (files : List (String × Option JVal)) (fname : String)
      (content : Option JVal),
      (fname, content) ∈ files → validateStructure content = false →
      ∃ msg, parseFiles resolve files = .error msg := by
  intro files
  induction files with
  | nil => intro f c h _; simp at h
  | cons hd tl ih =>
    intro f c hmem hval
    obtain ⟨n, cc⟩ := hd
    rcases List.mem_cons.mp hmem with heq | hmem2
    · injection heq with h1 h2
      subst h1; subst h2
      exact ⟨f ++ " does not match the required structure",
        by simp [parseFiles, hval]⟩
    · cases hv : validateStructure cc with
      | false =>
        exact ⟨n ++ " does not match the required structure",
          by simp [parseFiles, hv]⟩
      | true =>
        cases cc with
        | none => simp [validateStructure] at hv
        | some j =>
          obtain ⟨msg, hmsg⟩ := ih f c hmem2 hval
          cases hp : parsePackage resolve j with
          | error e => exact ⟨e, by simp [parseFiles, hv, hp]⟩
          | ok p =>
            exact ⟨msg, by simp [parseFiles, hv, hp, hmsg, Except.map]⟩

/-- C1: when any manifest file in the directory fails structural
validation, batch parsing raises (an error value is returned), and the
run builds nothing: no package record reaches the pipeline, which
produces no events at all. -/
theorem C1_invalid_manifest_rejects_batch (resolve : String → String)
    (w : MainWorld) (files : List (String × Option JVal))
    (fname : String) (content : Option JVal)
    (hmem : (fname, content) ∈ files)
    (hbad : validateStructure content = false) :
    (∃ msg, parseAllPackages resolve (some files) = .error msg) ∧
    mainRun w resolve (some files) = [] := by
  obtain ⟨msg, hmsg⟩ :=
    parseFiles_error_of_invalid resolve files fname content hmem hbad
  have hall : parseAllPackages resolve (some files) = .error msg := by
    cases files with
    | nil => simp at hmem
    | cons a b => simpa [parseAllPackages] using hmsg
  exact ⟨⟨msg, hall⟩, by simp [mainRun, hall]⟩

/-- Witness for C1: a directory with one valid manifest and one manifest
lacking the `package` section is rejected whole, and the run performs
nothing. -/
theorem C1_invalid_manifest_rejects_batch_witness :
    (∃ msg,
      parseAllPackages (fun _ => "unknown")
        (some
          [("good.json", some (.obj
             [("package", .obj
                [("name", JVal.str "foo"), ("version", JVal.str "1.0"),
                 ("architecture", JVal.str "x86_64"),
                 ("source", JVal.str "https://example.org/foo.tar.gz")]),
              ("build", .obj [("template", JVal.str "meson")])])),
           ("bad.json", some (.obj []))]) = .error msg) ∧
    mainRun ⟨⟨fun _ => true, true, []⟩, fun _ => true, true, fun _ => true⟩
      (fun _ => "unknown")
      (some
        [("good.json", some (.obj
           [("package", .obj
              [("name", JVal.str "foo"), ("version", JVal.str "1.0"),
               ("architecture", JVal.str "x86_64"),
               ("source", JVal.str "https://example.org/foo.tar.gz")]),
            ("build", .obj [("template", JVal.str "meson")])])),
         ("bad.json", some (.obj []))]) = [] :=
  C1_invalid_manifest_rejects_batch (fun _ => "unknown")
    ⟨⟨fun _ => true, true, []⟩, fun _ => true, true, fun _ => true⟩
    _ "bad.json" (some (.obj [])) (by simp) rfl

/-! ## C3: the `latest` sentinel -/

/-- C3: parsing a manifest whose `package.version` is the literal
`"latest"` overwrites the version with the resolver's result — whatever
string that is, including `"unknown"`, parsing still succeeds — and
changes no other package field; any other version value is left exactly
as written. -/
theorem C3_version_sentinel (resolve : String → String)
    (fs pf : List (String × JVal))
    (hpkg : lookupKey "package" fs = some (.obj pf))
    (hname : (lookupKey "name" pf).isSome)
    (harch : (lookupKey "architecture" pf).isSome)
    (hsrc : (lookupKey "source" pf).isSome)
    (hbuild : ∀ u,
      jGet "use" ((lookupKey "build" fs).getD (.obj [])) = some u →
      (jUseFlags u).isSome) :
    (∀ src, lookupKey "version" pf = some (.str "latest") →
      lookupKey "source" pf = some (.str src) →
      (∃ bi, parsePackage resolve (.obj fs) =
        .ok (.obj
          [("package", .obj (dictSet pf "version" (.str (resolve src)))),
           ("build", bi)])) ∧
      lookupKey "version" (dictSet pf "version" (.str (resolve src))) =
        some (.str (resolve src)) ∧
      (∀ k, k ≠ "version" →
        lookupKey k (dictSet pf "version" (.str (resolve src))) =
          lookupKey k pf)) ∧
    (∀ v, lookupKey "version" pf = some v → v ≠ .str "latest" →
      ∃ bi, parsePackage resolve (.obj fs) =
        .ok (.obj [("package", .obj pf), ("build", bi)])) := by
  constructor
  · intro src hv hs
    have hver0 : (lookupKey "version" pf).isSome := by rw [hv]; rfl
    refine ⟨?_, lookupKey_dictSet_self pf "version" _,
      fun k hk => lookupKey_dictSet_of_ne pf _ hk⟩
    unfold parsePackage
    simp only [hpkg, jHas, jGet, hname, harch, hsrc, hver0,
      Option.isSome_some, Bool.not_true, Bool.false_eq_true, if_false, hv,
      hs, jSet]
    rcases hbi : (lookupKey "build" fs).getD (.obj [])
        with s | nn | bb | _ | xs | bfs
    case str => exact ⟨.str s, by simp [hbi]⟩
    case num => exact ⟨.num nn, by simp [hbi]⟩
    case jbool => exact ⟨.jbool bb, by simp [hbi]⟩
    case null => exact ⟨.null, by simp [hbi]⟩
    case arr => exact ⟨.arr xs, by simp [hbi]⟩
    case obj =>
      rcases hu : lookupKey "use" bfs with _ | uv
      · exact ⟨.obj bfs, by simp [hbi, hu]⟩
      · rcases ht2 : lookupKey "template" bfs with _ | tv
        · exact ⟨.obj bfs, by simp [hbi, hu, ht2]⟩
        · obtain ⟨flags, hflags⟩ := Option.isSome_iff_exists.mp
            (hbuild uv (by rw [hbi]; exact hu))
          exact ⟨.obj (dictSet bfs "translated_flags"
              (.arr ((translateFlags ((jAsStr tv).getD "") flags).map .str))),
            by simp [hbi, hu, ht2, hflags]⟩
  · intro v hv hne
    have hver0 : (lookupKey "version" pf).isSome := by rw [hv]; rfl
    unfold parsePackage
    simp only [hpkg, jHas, jGet, hname, harch, hsrc, hver0,
      Option.isSome_some, Bool.not_true, Bool.false_eq_true, if_false, hv]
    split
    · rename_i e heq
      split at heq
      · rename_i heq2
        injection heq2 with h3
        exact absurd h3 hne
      · exact Except.noConfusion heq
    · rename_i p2 heq
      split at heq
      · rename_i heq2
        injection heq2 with h3
        exact absurd h3 hne
      · injection heq with h4
        subst h4
        rcases hbi : (lookupKey "build" fs).getD (.obj [])
            with s | nn | bb | _ | xs | bfs
        case str => exact ⟨.str s, by simp [hbi]⟩
        case num => exact ⟨.num nn, by simp [hbi]⟩
        case jbool => exact ⟨.jbool bb, by simp [hbi]⟩
        case null => exact ⟨.null, by simp [hbi]⟩
        case arr => exact ⟨.arr xs, by simp [hbi]⟩
        case obj =>
          rcases hu : lookupKey "use" bfs with _ | uv
          · exact ⟨.obj bfs, by simp [hbi, hu]⟩
          · rcases ht2 : lookupKey "template" bfs with _ | tv
            · exact ⟨.obj bfs, by simp [hbi, hu, ht2]⟩
            · obtain ⟨flags, hflags⟩ := Option.isSome_iff_exists.mp
                (hbuild uv (by rw [hbi]; exact hu))
              exact ⟨.obj (dictSet bfs "translated_flags"
                  (.arr ((translateFlags ((jAsStr tv).getD "") flags).map
                    .str))),
                by simp [hbi, hu, ht2, hflags, jSet]⟩

/-- Witness for C3: a manifest with `version = "latest"` and a resolver
that degrades to `"unknown"` still parses, with the version overwritten
to `"unknown"` and the other fields untouched. -/
theorem C3_version_sentinel_witness :
    (∃ bi, parsePackage (fun _ => "unknown")
      (.obj
        [("package", .obj
           [("name", JVal.str "foo"), ("version", JVal.str "latest"),
            ("architecture", JVal.str "x86_64"),
            ("source", JVal.str "https://unreachable.example/foo.tar.gz")]),
         ("build", .obj [("template", JVal.str "meson")])]) =
      .ok (.obj
        [("package", .obj (dictSet
           [("name", JVal.str "foo"), ("version", JVal.str "latest"),
            ("architecture", JVal.str "x86_64"),
            ("source", JVal.str "https://unreachable.example/foo.tar.gz")]
           "version" (.str "unknown"))),
         ("build", bi)])) ∧
    lookupKey "version" (dictSet
        [("name", JVal.str "foo"), ("version", JVal.str "latest"),
         ("architecture", JVal.str "x86_64"),
         ("source", JVal.str "https://unreachable.example/foo.tar.gz")]
        "version" (.str "unknown")) = some (.str "unknown") ∧
    (∀ k, k ≠ "version" →
      lookupKey k (dictSet
        [("name", JVal.str "foo"), ("version", JVal.str "latest"),
         ("architecture", JVal.str "x86_64"),
         ("source", JVal.str "https://unreachable.example/foo.tar.gz")]
        "version" (.str "unknown")) =
      lookupKey k
        [("name", JVal.str "foo"), ("version", JVal.str "latest"),
         ("architecture", JVal.str "x86_64"),
         ("source", JVal.str "https://unreachable.example/foo.tar.gz")]) :=
  (C3_version_sentinel (fun _ => "unknown")
    [("package", .obj
       [("name", JVal.str "foo"), ("version", JVal.str "latest"),
        ("architecture", JVal.str "x86_64"),
        ("source", JVal.str "https://unreachable.example/foo.tar.gz")]),
     ("build", .obj [("template", JVal.str "meson")])]
    [("name", JVal.str "foo"), ("version", JVal.str "latest"),
     ("architecture", JVal.str "x86_64"),
     ("source", JVal.str "https://unreachable.example/foo.tar.gz")]
    rfl rfl rfl rfl
    (fun _ hu => Option.noConfusion hu)).1
    "https://unreachable.example/foo.tar.gz" rfl rfl

/-! ## C4: the metadata merge -/

theorem jScalarEq_eq_true_iff (x : JVal) (h : isScalar x = true)
    (y : JVal) : jScalarEq y x = true ↔ y = x := by
  cases x <;> cases y <;> simp_all [jScalarEq, isScalar]

theorem mem_pySetGo (a : JVal) : ∀ (xs seen : List JVal),
    (∀ b ∈ xs, isScalar b = true) →
    (a ∈ pySetGo seen xs ↔ a ∈ xs ∧ a ∉ seen) := by
  intro xs
  induction xs with
  | nil => intro seen _; simp [pySetGo]
  | cons x rest ih =>
    intro seen hs
    have hx : isScalar x = true := hs x (List.mem_cons_self _ _)
    have hrest : ∀ b ∈ rest, isScalar b = true :=
      fun b hb => hs b (List.mem_cons_of_mem _ hb)
    by_cases hseen : x ∈ seen
    · have hany : (seen.any fun y => jScalarEq y x) = true := by
        rw [List.any_eq_true]
        exact ⟨x, hseen, (jScalarEq_eq_true_iff x hx x).mpr rfl⟩
      rw [pySetGo, if_pos hany, ih seen hrest]
      constructor
      · rintro ⟨ha, hns⟩; exact ⟨List.mem_cons_of_mem _ ha, hns⟩
      · rintro ⟨ha, hns⟩
        rcases List.mem_cons.mp ha with rfl | ha2
        · exact absurd hseen hns
        · exact ⟨ha2, hns⟩
    · have hany : (seen.any fun y => jScalarEq y x) = false := by
        apply Bool.eq_false_iff.mpr
        intro hc
        rw [List.any_eq_true] at hc
        obtain ⟨y, hy, hyx⟩ := hc
        rw [jScalarEq_eq_true_iff x hx y] at hyx
        subst hyx
        exact hseen hy
      rw [pySetGo, if_neg (by simp [hany]), List.mem_cons,
        ih (x :: seen) hrest]
      constructor
      · rintro (rfl | ⟨ha, hns⟩)
        · exact ⟨List.mem_cons_self _ _, hseen⟩
        · have hns2 : a ≠ x ∧ a ∉ seen := by
            rw [List.mem_cons] at hns; push_neg at hns; exact hns
          exact ⟨List.mem_cons_of_mem _ ha, hns2.2⟩
      · rintro ⟨ha, hns⟩
        by_cases hax : a = x
        · exact Or.inl hax
        · rcases List.mem_cons.mp ha with rfl | ha2
          · exact Or.inl rfl
          · exact Or.inr ⟨ha2, by rw [List.mem_cons]; push_neg
                                  exact ⟨hax, hns⟩⟩

theorem nodup_pySetGo : ∀ (xs seen : List JVal),
    (∀ b ∈ xs, isScalar b = true) → (pySetGo seen xs).Nodup := by
  intro xs
  induction xs with
  | nil => intro seen _; simp [pySetGo]
  | cons x rest ih =>
    intro seen hs
    have hrest : ∀ b ∈ rest, isScalar b = true :=
      fun b hb => hs b (List.mem_cons_of_mem _ hb)
    rw [pySetGo]
    split
    · exact ih seen hrest
    · refine List.nodup_cons.mpr ⟨?_, ih (x :: seen) hrest⟩
      intro hc
      rw [mem_pySetGo x rest (x :: seen) hrest] at hc
      exact hc.2 (List.mem_cons_self _ _)

theorem mem_pySetList (xs : List JVal)
    (h : ∀ b ∈ xs, isScalar b = true) (a : JVal) :
    a ∈ pySetList xs ↔ a ∈ xs := by
  rw [pySetList, mem_pySetGo a xs [] h]
  simp

theorem nodup_pySetList (xs : List JVal)
    (h : ∀ b ∈ xs, isScalar b = true) : (pySetList xs).Nodup :=
  nodup_pySetGo xs [] h

theorem mergePkgKey_lookup_ne (acc : List (String × JVal))
    (kv : String × JVal) (k : String) (h : k ≠ kv.1) :
    lookupKey k (mergePkgKey acc kv) = lookupKey k acc := by
  obtain ⟨k0, v0⟩ := kv
  have h2 : k ≠ k0 := h
  unfold mergePkgKey
  cases hl : lookupKey k0 acc with
  | none => simp [hl, lookupKey_dictSet_of_ne _ _ h2]
  | some w =>
    cases w with
    | arr xs => cases v0 <;> simp [hl, lookupKey_dictSet_of_ne _ _ h2]
    | str s => simp [hl]
    | num n => simp [hl]
    | jbool b => simp [hl]
    | null => simp [hl]
    | obj fs => simp [hl]

theorem foldMerge_lookup :
    ∀ (yp acc : List (String × JVal)), (yp.map Prod.fst).Nodup → ∀ k,
      lookupKey k (yp.foldl mergePkgKey acc) =
        (match lookupKey k yp with
         | none => lookupKey k acc
         | some vy => some (mergeVal (lookupKey k acc) vy)) := by
  intro yp
  induction yp with
  | nil => intro acc _ k; simp [lookupKey]
  | cons hd tl ih =>
    intro acc hnd k
    obtain ⟨k0, v0⟩ := hd
    rw [List.map_cons] at hnd
    have hnd0 := List.nodup_cons.mp hnd
    rw [List.foldl_cons, ih (mergePkgKey acc (k0, v0)) hnd0.2 k]
    by_cases hk : k = k0
    · subst hk
      rw [lookupKey_eq_none_of_not_mem hnd0.1]
      show lookupKey k (mergePkgKey acc (k, v0)) =
        (match lookupKey k ((k, v0) :: tl) with
         | none => lookupKey k acc
         | some vy => some (mergeVal (lookupKey k acc) vy))
      simp only [lookupKey, if_pos rfl]
      unfold mergePkgKey
      cases hl : lookupKey k acc with
      | none => simp [hl, mergeVal, lookupKey_dictSet_self]
      | some w =>
        cases w with
        | arr xs =>
          cases v0 <;> simp [hl, mergeVal, lookupKey_dictSet_self]
        | str s => cases v0 <;> simp [hl, mergeVal]
        | num n => cases v0 <;> simp [hl, mergeVal]
        | jbool b => cases v0 <;> simp [hl, mergeVal]
        | null => cases v0 <;> simp [hl, mergeVal]
        | obj fs => cases v0 <;> simp [hl, mergeVal]
    · rw [mergePkgKey_lookup_ne acc (k0, v0) k hk]
      have : lookupKey k ((k0, v0) :: tl) = lookupKey k tl := by
        simp [lookupKey, Ne.symm hk]
      rw [this]

theorem foldMerge_lookup_some (yp acc : List (String × JVal))
    (hnd : (yp.map Prod.fst).Nodup) (k : String) (vy : JVal)
    (hyk : lookupKey k yp = some vy) :
    lookupKey k (yp.foldl mergePkgKey acc) =
      some (mergeVal (lookupKey k acc) vy) := by
  rw [foldMerge_lookup yp acc hnd k, hyk]

/-- C4: merging the overlay's `package` record into the manifest-derived
`package` record: keys present in both with list values merge to the
deduplicated union, keys present in both with any other shape keep the
manifest value, keys only in the overlay are added. -/
theorem C4_metadata_merge (jm ym jp yp : List (String × JVal))
    (hj : lookupKey "package" jm = some (.obj jp))
    (hy : lookupKey "package" ym = some (.obj yp))
    (hynd : (yp.map Prod.fst).Nodup)
    (hscalJ : ∀ kv ∈ jp, ∀ xs, kv.2 = JVal.arr xs →
      ∀ a ∈ xs, isScalar a = true)
    (hscalY : ∀ kv ∈ yp, ∀ xs, kv.2 = JVal.arr xs →
      ∀ a ∈ xs, isScalar a = true) :
    ∃ out mp, combineMetadata jm ym = some out ∧
      lookupKey "package" out = some (.obj mp) ∧
      (∀ k xs ys, lookupKey k jp = some (.arr xs) →
        lookupKey k yp = some (.arr ys) →
        ∃ zs, lookupKey k mp = some (.arr zs) ∧ zs.Nodup ∧
          ∀ a, a ∈ zs ↔ (a ∈ xs ∨ a ∈ ys)) ∧
      (∀ k vj vy, lookupKey k jp = some vj → lookupKey k yp = some vy →
        (∀ xs ys, ¬(vj = .arr xs ∧ vy = .arr ys)) →
        lookupKey k mp = some vj) ∧
      (∀ k vy, lookupKey k jp = none → lookupKey k yp = some vy →
        lookupKey k mp = some vy) := by
  cases yp with
  | nil =>
    refine ⟨jm, jp, ?_, hj, ?_, ?_, ?_⟩
    · unfold combineMetadata; rw [hy]
    · intro k xs ys _ hyk; simp [lookupKey] at hyk
    · intro k vj vy _ hyk; simp [lookupKey] at hyk
    · intro k vy _ hyk; simp [lookupKey] at hyk
  | cons y0 yrest =>
    refine ⟨dictSet jm "package" (.obj ((y0 :: yrest).foldl mergePkgKey jp)),
      (y0 :: yrest).foldl mergePkgKey jp, ?_,
      lookupKey_dictSet_self jm "package" _, ?_, ?_, ?_⟩
    · unfold combineMetadata; rw [hy]; simp [hj]
    · intro k xs ys hjk hyk
      have hfold := foldMerge_lookup_some (y0 :: yrest) jp hynd k _ hyk
      rw [hjk] at hfold
      simp only [mergeVal] at hfold
      have hsc : ∀ b ∈ xs ++ ys, isScalar b = true := by
        intro b hb
        rcases List.mem_append.mp hb with h | h
        · exact hscalJ _ (lookupKey_mem hjk) xs rfl b h
        · exact hscalY _ (lookupKey_mem hyk) ys rfl b h
      refine ⟨pySetList (xs ++ ys), hfold, nodup_pySetList _ hsc, ?_⟩
      intro a
      rw [mem_pySetList _ hsc a, List.mem_append]
    · intro k vj vy hjk hyk hnot
      have hfold := foldMerge_lookup_some (y0 :: yrest) jp hynd k _ hyk
      rw [hjk] at hfold
      have hmv : mergeVal (some vj) vy = vj := by
        cases vj <;> cases vy <;>
          first
            | rfl
            | exact absurd ⟨rfl, rfl⟩ (hnot _ _)
      rw [hmv] at hfold
      exact hfold
    · intro k vy hjk hyk
      have hfold := foldMerge_lookup_some (y0 :: yrest) jp hynd k _ hyk
      rw [hjk] at hfold
      simpa [mergeVal] using hfold

/-- Witness for C4 on concrete metadata: `tags` lists union and
deduplicate, the scalar `name` keeps the manifest value, and the
overlay-only `license` is added. -/
theorem C4_metadata_merge_witness :
    ∃ out mp,
      combineMetadata
          [("package", .obj [("tags",
              JVal.arr [JVal.str "x", JVal.str "y"]),
              ("name", JVal.str "a")]),
           ("build", .obj [])]
          [("package", .obj [("tags",
              JVal.arr [JVal.str "y", JVal.str "z"]),
              ("name", JVal.str "b"), ("license", JVal.str "MIT")])] =
        some out ∧
      lookupKey "package" out = some (.obj mp) ∧
      (∀ k xs ys,
        lookupKey k [("tags", JVal.arr [JVal.str "x", JVal.str "y"]),
          ("name", JVal.str "a")] = some (.arr xs) →
        lookupKey k [("tags", JVal.arr [JVal.str "y", JVal.str "z"]),
          ("name", JVal.str "b"), ("license", JVal.str "MIT")] =
          some (.arr ys) →
        ∃ zs, lookupKey k mp = some (.arr zs) ∧ zs.Nodup ∧
          ∀ a, a ∈ zs ↔ (a ∈ xs ∨ a ∈ ys)) ∧
      (∀ k vj vy,
        lookupKey k [("tags", JVal.arr [JVal.str "x", JVal.str "y"]),
          ("name", JVal.str "a")] = some vj →
        lookupKey k [("tags", JVal.arr [JVal.str "y", JVal.str "z"]),
          ("name", JVal.str "b"), ("license", JVal.str "MIT")] = some vy →
        (∀ xs ys, ¬(vj = .arr xs ∧ vy = .arr ys)) →
        lookupKey k mp = some vj) ∧
      (∀ k vy,
        lookupKey k [("tags", JVal.arr [JVal.str "x", JVal.str "y"]),
          ("name", JVal.str "a")] = none →
        lookupKey k [("tags", JVal.arr [JVal.str "y", JVal.str "z"]),
          ("name", JVal.str "b"), ("license", JVal.str "MIT")] = some vy →
        lookupKey k mp = some vy) :=
  C4_metadata_merge _ _
    [("tags", JVal.arr [JVal.str "x", JVal.str "y"]),
     ("name", JVal.str "a")]
    [("tags", JVal.arr [JVal.str "y", JVal.str "z"]),
     ("name", JVal.str "b"), ("license", JVal.str "MIT")]
    rfl rfl (by decide)
    (by
      rintro kv hkv xs hxs a ha
      simp only [List.mem_cons, List.not_mem_nil, or_false] at hkv
      rcases hkv with rfl | rfl
      · cases hxs
        rcases List.mem_cons.mp ha with rfl | ha2
        · rfl
        · rcases List.mem_cons.mp ha2 with rfl | ha3
          · rfl
          · simp at ha3
      · exact absurd hxs (by simp))
    (by
      rintro kv hkv xs hxs a ha
      simp only [List.mem_cons, List.not_mem_nil, or_false] at hkv
      rcases hkv with rfl | rfl | rfl
      · cases hxs
        rcases List.mem_cons.mp ha with rfl | ha2
        · rfl
        · rcases List.mem_cons.mp ha2 with rfl | ha3
          · rfl
          · simp at ha3
      · exact absurd hxs (by simp)
      · exact absurd hxs (by simp))

/-! ## C5 and C6: flag plumbing and stage gating in the build manager -/

/-- `build_package` on a meson-template package: the combined flag list
goes to `setup`, and the three stages run in order, stopping at the
first failure. -/
theorem buildPackage_meson_trace (w : BuildWorld) (p bi : JVal)
    (sd bd idir : String)
    (hb : jGet "build" p = some bi) (ht : templateNameOf bi = "meson") :
    buildPackage w p sd bd idir =
      (let sc := mesonSetupCmd sd bd idir (combinedFlags bi)
       if !(w.exec sc) then (false, [sc])
       else if !(w.exec (mesonCompileCmd bd)) then
         (false, [sc, mesonCompileCmd bd])
       else if !(w.exec (mesonInstallCmd bd)) then
         (false, [sc, mesonCompileCmd bd, mesonInstallCmd bd])
       else (true, [sc, mesonCompileCmd bd, mesonInstallCmd bd])) := by
  cases hS : w.exec (mesonSetupCmd sd bd idir (combinedFlags bi)) <;>
  cases hC : w.exec (mesonCompileCmd bd) <;>
  cases hI : w.exec (mesonInstallCmd bd) <;>
    simp [buildPackage, hb, ht, getTemplateStages, runCmd, hS, hC, hI]

/-- C5 (amended): for a meson-template package the first subprocess is
the setup invocation, whose arguments end with the combined flag list —
the raw manifest `extra_flags` first, then the translated flags, not
deduplicated — while the compile entry point, run next when setup
succeeds, is a fixed command that receives no flags at all. -/
theorem C5_flags_combined_into_setup (w : BuildWorld) (p bi : JVal)
    (sd bd idir : String)
    (hb : jGet "build" p = some bi) (ht : templateNameOf bi = "meson") :
    ∃ sc, (buildPackage w p sd bd idir).2.head? = some sc ∧
      sc = ["meson", "setup", bd, sd, "--prefix=/usr",
        "--destdir=" ++ idir] ++
        (rawExtraFlags bi ++ translatedFlagsOf bi) ∧
      (w.exec sc = true →
        (buildPackage w p sd bd idir).2.get? 1 =
          some (mesonCompileCmd bd)) ∧
      mesonCompileCmd bd = ["meson", "compile", "-C", bd] := by
  refine ⟨mesonSetupCmd sd bd idir (combinedFlags bi), ?_, rfl, ?_, rfl⟩
  · rw [buildPackage_meson_trace w p bi sd bd idir hb ht]
    cases hS : w.exec (mesonSetupCmd sd bd idir (combinedFlags bi)) <;>
    cases hC : w.exec (mesonCompileCmd bd) <;>
    cases hI : w.exec (mesonInstallCmd bd) <;> simp [hS, hC, hI]
  · intro hS
    rw [buildPackage_meson_trace w p bi sd bd idir hb ht]
    cases hC : w.exec (mesonCompileCmd bd) <;>
    cases hI : w.exec (mesonInstallCmd bd) <;> simp [hS, hC, hI]

/-- Witness for C5 (amended) at a concrete package carrying both raw and
translated flags. -/
theorem C5_flags_combined_into_setup_witness :
    ∃ sc, (buildPackage ⟨fun _ => true, true, []⟩
      (.obj [("package", .obj [("name", JVal.str "demo")]),
             ("build", .obj [("template", JVal.str "meson"),
               ("extra_flags", .arr [JVal.str "-X"]),
               ("translated_flags", .arr [JVal.str "-T"])])])
      "s" "b" "i").2.head? = some sc ∧
      sc = ["meson", "setup", "b", "s", "--prefix=/usr",
        "--destdir=" ++ "i"] ++
        (rawExtraFlags (.obj [("template", JVal.str "meson"),
            ("extra_flags", .arr [JVal.str "-X"]),
            ("translated_flags", .arr [JVal.str "-T"])]) ++
          translatedFlagsOf (.obj [("template", JVal.str "meson"),
            ("extra_flags", .arr [JVal.str "-X"]),
            ("translated_flags", .arr [JVal.str "-T"])])) ∧
      ((fun _ => true : List String → Bool) sc = true →
        (buildPackage ⟨fun _ => true, true, []⟩
          (.obj [("package", .obj [("name", JVal.str "demo")]),
                 ("build", .obj [("template", JVal.str "meson"),
                   ("extra_flags", .arr [JVal.str "-X"]),
                   ("translated_flags", .arr [JVal.str "-T"])])])
          "s" "b" "i").2.get? 1 = some (mesonCompileCmd "b")) ∧
      mesonCompileCmd "b" = ["meson", "compile", "-C", "b"] :=
  C5_flags_combined_into_setup ⟨fun _ => true, true, []⟩
    (.obj [("package", .obj [("name", JVal.str "demo")]),
           ("build", .obj [("template", JVal.str "meson"),
             ("extra_flags", .arr [JVal.str "-X"]),
             ("translated_flags", .arr [JVal.str "-T"])])])
    (.obj [("template", JVal.str "meson"),
      ("extra_flags", .arr [JVal.str "-X"]),
      ("translated_flags", .arr [JVal.str "-T"])])
    "s" "b" "i" rfl rfl

/-- C5 counterexample: the claim as stated is false — the combined flags
are passed to `setup`, in raw-then-translated order, and the compile
invocation contains neither the translated flag `-T` nor the raw flag
`-X`; the claimed translated-then-raw list also differs from the one the
code builds. -/
theorem C5_compile_gets_no_flags_counterexample :
    (buildPackage ⟨fun _ => true, true, []⟩
      (.obj [("package", .obj [("name", JVal.str "demo")]),
             ("build", .obj [("template", JVal.str "meson"),
               ("extra_flags", .arr [JVal.str "-X"]),
               ("translated_flags", .arr [JVal.str "-T"])])])
      "s" "b" "i").2 =
      [["meson", "setup", "b", "s", "--prefix=/usr", "--destdir=i",
        "-X", "-T"],
       ["meson", "compile", "-C", "b"],
       ["meson", "install", "-C", "b", "--skip-subprojects"]] ∧
    "-T" ∉ (["meson", "compile", "-C", "b"] : List String) ∧
    "-X" ∉ (["meson", "compile", "-C", "b"] : List String) ∧
    (["-X", "-T"] : List String) ≠ ["-T", "-X"] :=
  ⟨rfl, by decide, by decide, by decide⟩

/-- C6: for any template, a failing stage stops the package's pipeline
at that stage — a setup failure leaves a trace of the setup invocations
only, a compile failure stops before any install invocation, an install
failure ends the trace there — the build reports failure as a boolean,
and the orchestrator then records the failure without packaging that
package (no archive is assembled for it) while the next package in the
batch is still processed. -/
theorem C6_stage_failure_skips_rest (w : MainWorld) (p bi : JVal)
    (rest : List JVal) (st cp inst : StageResult)
    (hb : jGet "build" p = some bi)
    (hstages : getTemplateStages w.build (templateNameOf bi) tmpSourceDir
      tmpBuildDir tmpInstallDir (combinedFlags bi) = some (st, cp, inst))
    (hdl : w.download (pkgField p "source") = true) :
    (st.ok = false →
      buildPackage w.build p tmpSourceDir tmpBuildDir tmpInstallDir =
        (false, st.ran)) ∧
    (st.ok = true → cp.ok = false →
      buildPackage w.build p tmpSourceDir tmpBuildDir tmpInstallDir =
        (false, st.ran ++ cp.ran)) ∧
    (st.ok = true → cp.ok = true → inst.ok = false →
      buildPackage w.build p tmpSourceDir tmpBuildDir tmpInstallDir =
        (false, st.ran ++ cp.ran ++ inst.ran)) ∧
    ((buildPackage w.build p tmpSourceDir tmpBuildDir tmpInstallDir).1 =
        false →
      processAll w (p :: rest) =
        (Event.downloaded (pkgField p "name") ::
          List.map Event.ran
            (buildPackage w.build p tmpSourceDir tmpBuildDir
              tmpInstallDir).2 ++
          [Event.buildFailed (pkgField p "name")]) ++ processAll w rest ∧
      Event.packaged (pkgField p "name") ∉
        (Event.downloaded (pkgField p "name") ::
          List.map Event.ran
            (buildPackage w.build p tmpSourceDir tmpBuildDir
              tmpInstallDir).2 ++
          [Event.buildFailed (pkgField p "name")])) := by
  have hB : buildPackage w.build p tmpSourceDir tmpBuildDir
      tmpInstallDir =
      (if !st.ok then (false, st.ran)
       else if !cp.ok then (false, st.ran ++ cp.ran)
       else if !inst.ok then (false, st.ran ++ cp.ran ++ inst.ran)
       else (true, st.ran ++ cp.ran ++ inst.ran)) := by
    unfold buildPackage
    simp only [hb, Option.getD_some, hstages]
  refine ⟨?_, ?_, ?_, ?_⟩
  · intro h1; rw [hB]; simp [h1]
  · intro h1 h2; rw [hB]; simp [h1, h2]
  · intro h1 h2 h3; rw [hB]; simp [h1, h2, h3]
  · intro hfail
    refine ⟨?_, by simp⟩
    simp [processAll, processPackage, hdl, hfail]

/-- Witness for C6 with concrete meson packages under three worlds — one
whose setup fails, one whose compile fails, one whose install fails —
each stopping the trace at the failing stage; under the compile-failure
world the failed first package is not packaged and the second package is
still processed. -/
theorem C6_stage_failure_skips_rest_witness :
    buildPackage
        ⟨fun cmd => !(cmd == ["meson", "setup", "tmp/build", "tmp/source",
          "--prefix=/usr", "--destdir=tmp/install"]), true, []⟩
        (JVal.obj [("package", .obj [("name", JVal.str "p1"),
            ("source", JVal.str "u1")]),
          ("build", .obj [("template", JVal.str "meson")])])
        "tmp/source" "tmp/build" "tmp/install" =
      (false, [["meson", "setup", "tmp/build", "tmp/source",
        "--prefix=/usr", "--destdir=tmp/install"]]) ∧
    buildPackage
        ⟨fun cmd => !(cmd == ["meson", "compile", "-C", "tmp/build"]),
          true, []⟩
        (JVal.obj [("package", .obj [("name", JVal.str "p1"),
            ("source", JVal.str "u1")]),
          ("build", .obj [("template", JVal.str "meson")])])
        "tmp/source" "tmp/build" "tmp/install" =
      (false, [["meson", "setup", "tmp/build", "tmp/source",
        "--prefix=/usr", "--destdir=tmp/install"],
        ["meson", "compile", "-C", "tmp/build"]]) ∧
    buildPackage
        ⟨fun cmd => !(cmd == ["meson", "install", "-C", "tmp/build",
          "--skip-subprojects"]), true, []⟩
        (JVal.obj [("package", .obj [("name", JVal.str "p1"),
            ("source", JVal.str "u1")]),
          ("build", .obj [("template", JVal.str "meson")])])
        "tmp/source" "tmp/build" "tmp/install" =
      (false, [["meson", "setup", "tmp/build", "tmp/source",
        "--prefix=/usr", "--destdir=tmp/install"],
        ["meson", "compile", "-C", "tmp/build"],
        ["meson", "install", "-C", "tmp/build", "--skip-subprojects"]]) ∧
    processAll
        ⟨⟨fun cmd => !(cmd == ["meson", "compile", "-C", "tmp/build"]),
          true, []⟩, fun _ => true, true, fun _ => true⟩
        [JVal.obj [("package", .obj [("name", JVal.str "p1"),
            ("source", JVal.str "u1")]),
          ("build", .obj [("template", JVal.str "meson")])],
         JVal.obj [("package", .obj [("name", JVal.str "p2"),
            ("source", JVal.str "u2")]),
          ("build", .obj [("template", JVal.str "meson")])]] =
      [Event.downloaded "p1",
       Event.ran ["meson", "setup", "tmp/build", "tmp/source",
         "--prefix=/usr", "--destdir=tmp/install"],
       Event.ran ["meson", "compile", "-C", "tmp/build"],
       Event.buildFailed "p1"] ++
      processAll
        ⟨⟨fun cmd => !(cmd == ["meson", "compile", "-C", "tmp/build"]),
          true, []⟩, fun _ => true, true, fun _ => true⟩
        [JVal.obj [("package", .obj [("name", JVal.str "p2"),
            ("source", JVal.str "u2")]),
          ("build", .obj [("template", JVal.str "meson")])]] ∧
    Event.packaged "p1" ∉
      [Event.downloaded "p1",
       Event.ran ["meson", "setup", "tmp/build", "tmp/source",
         "--prefix=/usr", "--destdir=tmp/install"],
       Event.ran ["meson", "compile", "-C", "tmp/build"],
       Event.buildFailed "p1"] :=
  ⟨(C6_stage_failure_skips_rest
      ⟨⟨fun cmd => !(cmd == ["meson", "setup", "tmp/build", "tmp/source",
        "--prefix=/usr", "--destdir=tmp/install"]), true, []⟩,
        fun _ => true, true, fun _ => true⟩
      (JVal.obj [("package", .obj [("name", JVal.str "p1"),
          ("source", JVal.str "u1")]),
        ("build", .obj [("template", JVal.str "meson")])])
      (.obj [("template", JVal.str "meson")]) []
      ⟨false, [["meson", "setup", "tmp/build", "tmp/source",
        "--prefix=/usr", "--destdir=tmp/install"]]⟩
      ⟨true, [["meson", "compile", "-C", "tmp/build"]]⟩
      ⟨true, [["meson", "install", "-C", "tmp/build",
        "--skip-subprojects"]]⟩
      rfl rfl rfl).1 rfl,
   (C6_stage_failure_skips_rest
      ⟨⟨fun cmd => !(cmd == ["meson", "compile", "-C", "tmp/build"]),
        true, []⟩, fun _ => true, true, fun _ => true⟩
      (JVal.obj [("package", .obj [("name", JVal.str "p1"),
          ("source", JVal.str "u1")]),
        ("build", .obj [("template", JVal.str "meson")])])
      (.obj [("template", JVal.str "meson")]) []
      ⟨true, [["meson", "setup", "tmp/build", "tmp/source",
        "--prefix=/usr", "--destdir=tmp/install"]]⟩
      ⟨false, [["meson", "compile", "-C", "tmp/build"]]⟩
      ⟨true, [["meson", "install", "-C", "tmp/build",
        "--skip-subprojects"]]⟩
      rfl rfl rfl).2.1 rfl rfl,
   (C6_stage_failure_skips_rest
      ⟨⟨fun cmd => !(cmd == ["meson", "install", "-C", "tmp/build",
        "--skip-subprojects"]), true, []⟩,
        fun _ => true, true, fun _ => true⟩
      (JVal.obj [("package", .obj [("name", JVal.str "p1"),
          ("source", JVal.str "u1")]),
        ("build", .obj [("template", JVal.str "meson")])])
      (.obj [("template", JVal.str "meson")]) []
      ⟨true, [["meson", "setup", "tmp/build", "tmp/source",
        "--prefix=/usr", "--destdir=tmp/install"]]⟩
      ⟨true, [["meson", "compile", "-C", "tmp/build"]]⟩
      ⟨false, [["meson", "install", "-C", "tmp/build",
        "--skip-subprojects"]]⟩
      rfl rfl rfl).2.2.1 rfl rfl rfl,
   ((C6_stage_failure_skips_rest
      ⟨⟨fun cmd => !(cmd == ["meson", "compile", "-C", "tmp/build"]),
        true, []⟩, fun _ => true, true, fun _ => true⟩
      (JVal.obj [("package", .obj [("name", JVal.str "p1"),
          ("source", JVal.str "u1")]),
        ("build", .obj [("template", JVal.str "meson")])])
      (.obj [("template", JVal.str "meson")])
      [JVal.obj [("package", .obj [("name", JVal.str "p2"),
          ("source", JVal.str "u2")]),
        ("build", .obj [("template", JVal.str "meson")])]]
      ⟨true, [["meson", "setup", "tmp/build", "tmp/source",
        "--prefix=/usr", "--destdir=tmp/install"]]⟩
      ⟨false, [["meson", "compile", "-C", "tmp/build"]]⟩
      ⟨true, [["meson", "install", "-C", "tmp/build",
        "--skip-subprojects"]]⟩
      rfl rfl rfl).2.2.2 rfl).1,
   ((C6_stage_failure_skips_rest
      ⟨⟨fun cmd => !(cmd == ["meson", "compile", "-C", "tmp/build"]),
        true, []⟩, fun _ => true, true, fun _ => true⟩
      (JVal.obj [("package", .obj [("name", JVal.str "p1"),
          ("source", JVal.str "u1")]),
        ("build", .obj [("template", JVal.str "meson")])])
      (.obj [("template", JVal.str "meson")])
      [JVal.obj [("package", .obj [("name", JVal.str "p2"),
          ("source", JVal.str "u2")]),
        ("build", .obj [("template", JVal.str "meson")])]]
      ⟨true, [["meson", "setup", "tmp/build", "tmp/source",
        "--prefix=/usr", "--destdir=tmp/install"]]⟩
      ⟨false, [["meson", "compile", "-C", "tmp/build"]]⟩
      ⟨true, [["meson", "install", "-C", "tmp/build",
        "--skip-subprojects"]]⟩
      rfl rfl rfl).2.2.2 rfl).2⟩

/-! ## C2: the checksum manifest -/

theorem rglobDir_cons_perm (n : String) (e : FSEntry) (rest : FSDir) :
    List.Perm (rglobDir (.cons n e rest))
      ((([n], e) :: (rglobEntry e).map (fun pe => (n :: pe.1, pe.2))) ++
        rglobDir rest) := by
  show List.Perm
    ((([n], e) :: rglobDirect rest) ++
      ((rglobEntry e).map (fun pe => (n :: pe.1, pe.2)) ++ rglobDeep rest))
    _
  simp only [List.cons_append]
  refine List.Perm.cons _ ?_
  unfold rglobDir
  rw [← List.append_assoc, ← List.append_assoc]
  exact List.perm_append_comm.append_right _

theorem rglobDir_shape : ∀ (d : FSDir) (pe : List String × FSEntry),
    pe ∈ rglobDir d → ∃ m q, pe.1 = m :: q ∧ m ∈ dirNames d
  | .nil, pe, h => by simp [rglobDir, rglobDirect, rglobDeep] at h
  | .cons n e rest, pe, h => by
    have h2 := (rglobDir_cons_perm n e rest).mem_iff.mp h
    rcases List.mem_append.mp h2 with h3 | h3
    · rcases List.mem_cons.mp h3 with rfl | h4
      · exact ⟨n, [], rfl, by simp [dirNames]⟩
      · obtain ⟨pe2, _, rfl⟩ := List.mem_map.mp h4
        exact ⟨n, pe2.1, rfl, by simp [dirNames]⟩
    · obtain ⟨m, q, hq, hm⟩ := rglobDir_shape rest pe h3
      exact ⟨m, q, hq, by simp [dirNames, hm]⟩

theorem rglobEntry_path_ne_nil (e : FSEntry) (pe : List String × FSEntry)
    (h : pe ∈ rglobEntry e) : pe.1 ≠ [] := by
  cases e with
  | file c => simp [rglobEntry] at h
  | symlink r => simp [rglobEntry] at h
  | dir d =>
    obtain ⟨m, q, hq, _⟩ := rglobDir_shape d pe h
    simp [hq]

mutual
theorem rglobEntry_paths_nodup : ∀ (e : FSEntry), wfEntry e →
    ((rglobEntry e).map Prod.fst).Nodup
  | .file _, _ => by simp [rglobEntry]
  | .symlink _, _ => by simp [rglobEntry]
  | .dir d, h => rglobDir_paths_nodup d h
theorem rglobDir_paths_nodup : ∀ (d : FSDir), wfDir d →
    ((rglobDir d).map Prod.fst).Nodup
  | .nil, _ => by simp [rglobDir, rglobDirect, rglobDeep]
  | .cons n e rest, h => by
    obtain ⟨hn, he, hrest⟩ := h
    refine (((rglobDir_cons_perm n e rest).map Prod.fst).nodup_iff).mpr ?_
    rw [List.map_append, List.map_cons, List.map_map]
    refine List.Nodup.append ?_ (rglobDir_paths_nodup rest hrest) ?_
    · refine List.nodup_cons.mpr ⟨?_, ?_⟩
      · intro hc
        obtain ⟨pe2, hpe2, heq⟩ := List.mem_map.mp hc
        have heq2 : n :: pe2.1 = [n] := heq
        have h2 : pe2.1 = [] := by
          injection heq2 with _ h3
        exact rglobEntry_path_ne_nil e pe2 hpe2 h2
      · have hinj : Function.Injective (fun p : List String => n :: p) :=
          fun a b hab => by injection hab
        have h3 := List.Nodup.map hinj (rglobEntry_paths_nodup e he)
        rw [List.map_map] at h3
        exact h3
    · intro a ha hb
      have hhead : ∃ t, a = n :: t := by
        rcases List.mem_cons.mp ha with rfl | h4
        · exact ⟨[], rfl⟩
        · obtain ⟨pe2, _, heq⟩ := List.mem_map.mp h4
          exact ⟨pe2.1, heq.symm⟩
      obtain ⟨t, rfl⟩ := hhead
      obtain ⟨pe2, hpe2, heq⟩ := List.mem_map.mp hb
      obtain ⟨m, q, hq, hm⟩ := rglobDir_shape rest pe2 hpe2
      rw [hq] at heq
      injection heq with h5 _
      exact hn (h5 ▸ hm)
end

theorem crcShift_lt (c : Nat) (h : c < 2 ^ 32) : crcShift c < 2 ^ 32 := by
  unfold crcShift crc32Poly
  split
  · exact Nat.xor_lt_two_pow (by omega) (by norm_num)
  · omega

theorem crcIter_lt : ∀ (k c : Nat), c < 2 ^ 32 →
    crcShift^[k] c < 2 ^ 32
  | 0, _, h => h
  | k + 1, c, h => by
    rw [Function.iterate_succ_apply]
    exact crcIter_lt k _ (crcShift_lt c h)

theorem crcByte_lt (c b : Nat) (h : c < 2 ^ 32) : crcByte c b < 2 ^ 32 := by
  unfold crcByte
  exact crcIter_lt 8 _ (Nat.xor_lt_two_pow h (by omega))

theorem crc32_lt (bs : List Nat) : crc32 bs < 2 ^ 32 := by
  unfold crc32
  have hstep : ∀ (l : List Nat) (acc : Nat), acc < 2 ^ 32 →
      l.foldl crcByte acc < 2 ^ 32 := by
    intro l
    induction l with
    | nil => intro acc h; exact h
    | cons b t ih =>
      intro acc h
      rw [List.foldl_cons]
      exact ih _ (crcByte_lt acc b h)
  exact Nat.xor_lt_two_pow (hstep bs _ (by norm_num)) (by norm_num)

theorem toHex8_length (n : Nat) : (toHex8 n).length = 8 := rfl

/-- C2 (amended): the checksum manifest written by
`_generate_crc32_checksums` holds, in traversal order and newline-joined,
exactly one `"<8-hex-digit CRC-32>  <relative path>"` line for each
entry `Path.is_file()` accepts under `data/` — every regular file, with
no omissions and no duplicates, and no entry for directories or for
symlinks that do not resolve to regular files; a symlink that resolves
to a regular file is checksummed like a file. -/
theorem C2_crc32sums_characterization (d : FSDir) (h : wfDir d) :
    ((checksumEntries d).map Prod.fst).Nodup ∧
    (∀ pe : List String × FSEntry, pe ∈ rglobDir d →
      (pe ∈ checksumEntries d ↔ pyIsFile pe.2 = true)) ∧
    genCrc32sums d = String.intercalate "\n" ((checksumEntries d).map
      fun pe => toHex8 (crc32 (fileBytes pe.2)) ++ "  " ++
        joinPath pe.1) ∧
    (∀ bs : List Nat, crc32 bs < 2 ^ 32 ∧
      (toHex8 (crc32 bs)).length = 8) := by
  refine ⟨?_, ?_, rfl, fun bs => ⟨crc32_lt bs, toHex8_length _⟩⟩
  · have hsub : List.Sublist (checksumEntries d) (rglobDir d) :=
      List.filter_sublist _
    exact (rglobDir_paths_nodup d h).sublist (hsub.map Prod.fst)
  · intro pe hpe
    rw [checksumEntries, List.mem_filter]
    simp [hpe]

/-- Witness for C2 on a small concrete tree with a nested directory. -/
theorem C2_crc32sums_characterization_witness :
    ((checksumEntries (.cons "a" (.file [1, 2]) (.cons "sub"
        (.dir (.cons "b" (.file []) .nil)) .nil))).map Prod.fst).Nodup ∧
    ((["a"], FSEntry.file [1, 2]) ∈ checksumEntries (.cons "a"
        (.file [1, 2]) (.cons "sub" (.dir (.cons "b" (.file []) .nil))
        .nil)) ↔ pyIsFile (FSEntry.file [1, 2]) = true) ∧
    genCrc32sums (.cons "a" (.file [1, 2]) (.cons "sub"
        (.dir (.cons "b" (.file []) .nil)) .nil)) =
      "b6cc4292  a\n00000000  sub/b" :=
  ⟨(C2_crc32sums_characterization (.cons "a" (.file [1, 2]) (.cons "sub"
      (.dir (.cons "b" (.file []) .nil)) .nil))
      (by simp [wfDir, wfEntry, dirNames])).1,
   (C2_crc32sums_characterization (.cons "a" (.file [1, 2]) (.cons "sub"
      (.dir (.cons "b" (.file []) .nil)) .nil))
      (by simp [wfDir, wfEntry, dirNames])).2.1
      (["a"], FSEntry.file [1, 2]) (List.Mem.head _),
   rfl⟩

/-- C2 counterexample: a symlink resolving to a regular file **does**
get a checksum line (`Path.is_file()` follows links), so the manifest of
a tree whose only entry is such a symlink is not empty, contradicting
the claim's "contains no entry for directories or symlinks". -/
theorem C2_symlink_entry_counterexample :
    genCrc32sums (.cons "l" (.symlink (some [])) .nil) = "00000000  l" ∧
    pyIsFile (.symlink (some [])) = true ∧
    ("00000000  l" : String) ≠ "" :=
  ⟨rfl, rfl, by decide⟩

end Apger
